import Mathlib

/-!
# Verification of the DAPHNE graph extraction engine

Shallow embedding of `neo4j_schemaDAPHNE/daphne_lib` (`utils.py`, `config.py`,
`extractor.py`) together with proofs of the specification's testable
properties.  Python dictionaries are modelled as insertion-ordered
association lists (Python 3.7+ dicts preserve insertion order), strings as
Lean `String`, `None`-able values as `Option`, and the mutable
`DaphneGraphExtractor` object as an explicit state record threaded through
every operation.

String primitives (`str.strip`, `str.upper`, `str.lower`,
`unicodedata.NFD + ascii-ignore`) are modelled faithfully on the
Latin-1 range (U+0000..U+00FF), which covers the repository's French data;
code points above U+00FF are mapped to themselves (case mappings) or
dropped (ascii re-encoding) without decomposition.
-/

namespace Daphne

/-- Whitespace as recognised by Python's `str.strip()` / `re` `\s`
(Latin-1 range). -/
def pyIsSpace (c : Char) : Bool :=
  c = ' ' ∨ c = '\t' ∨ c = '\n' ∨ c = '\x0b' ∨ c = '\x0c' ∨ c = '\r' ∨
  c = '\x1c' ∨ c = '\x1d' ∨ c = '\x1e' ∨ c = '\x1f' ∨ c = '\x85' ∨ c = '\xa0'

/-- `str.strip()` on a character list: drop whitespace from both ends. -/
def stripChars (l : List Char) : List Char :=
  ((l.dropWhile pyIsSpace).reverse.dropWhile pyIsSpace).reverse

/-- `str.strip()`. -/
def pyStrip (s : String) : String := String.mk (stripChars s.toList)

/-- One step of Python `str.upper()` (Latin-1 faithful; code points above
U+00FF are kept unchanged). -/
def pyUpperChar (c : Char) : List Char :=
  if c = 'ß' then ['S', 'S']
  else if c = 'µ' then ['Μ']
  else if c = 'ÿ' then ['Ÿ']
  else if 'a' ≤ c ∧ c ≤ 'z' then [Char.ofNat (c.toNat - 32)]
  else if 'à' ≤ c ∧ c ≤ 'þ' ∧ c ≠ '÷' then [Char.ofNat (c.toNat - 32)]
  else [c]

/-- Python `str.upper()`. -/
def pyUpper (s : String) : String := String.mk ((s.toList.map pyUpperChar).flatten)

/-- One step of Python `str.lower()` (Latin-1 faithful). -/
def pyLowerChar (c : Char) : Char :=
  if 'A' ≤ c ∧ c ≤ 'Z' then Char.ofNat (c.toNat + 32)
  else if 'À' ≤ c ∧ c ≤ 'Þ' ∧ c ≠ '×' then Char.ofNat (c.toNat + 32)
  else c

/-- Python `str.lower()`. -/
def pyLower (s : String) : String := String.mk (s.toList.map pyLowerChar)

/-- `config.STOP_WORDS`. -/
def STOP_WORDS : List String := ["INCONNU", "NON SPÉCIFIÉ", "NON SPECIFIE", "?", ""]

/-- Strip all trailing occurrences of a character, Python `str.rstrip(c)`. -/
def rstripChar (c : Char) (l : List Char) : List Char :=
  (l.reverse.dropWhile (fun x => x = c)).reverse

/-- `re.sub(r'\(\s*\)', '', ·)`, fuel-based scan: delete every parenthesis
pair holding only whitespace.  The regex scan is left-to-right and resumes
after each match; each step consumes at least one character, so fuel equal
to the length always suffices (structural recursion keeps concrete values
kernel-reducible). -/
def removeEmptyParensAux : Nat → List Char → List Char
  | 0, l => l
  | Nat.succ fuel, l =>
    match l with
    | [] => []
    | c :: rest =>
      if c = '(' then
        let rest' := rest.dropWhile pyIsSpace
        if rest'.head? = some ')' then removeEmptyParensAux fuel rest'.tail
        else '(' :: removeEmptyParensAux fuel rest
      else c :: removeEmptyParensAux fuel rest

/-- `re.sub(r'\(\s*\)', '', ·)`. -/
def removeEmptyParens (l : List Char) : List Char := removeEmptyParensAux l.length l

/-- `re.sub(r'\s{2,}', ' ', ·)`, fuel-based: collapse runs of at least two
whitespace characters into one space; a lone whitespace character is kept
verbatim. -/
def collapseWs2Aux : Nat → List Char → List Char
  | 0, l => l
  | Nat.succ fuel, l =>
    match l with
    | [] => []
    | c :: rest =>
      if pyIsSpace c then
        if (rest.takeWhile pyIsSpace).length ≥ 1 then
          ' ' :: collapseWs2Aux fuel (rest.dropWhile pyIsSpace)
        else c :: collapseWs2Aux fuel rest
      else c :: collapseWs2Aux fuel rest

/-- `re.sub(r'\s{2,}', ' ', ·)`. -/
def collapseWs2 (l : List Char) : List Char := collapseWs2Aux l.length l

/-- `re.sub(r'\s+', ' ', ·)`, fuel-based: collapse every whitespace run into
one space. -/
def collapseWs1Aux : Nat → List Char → List Char
  | 0, l => l
  | Nat.succ fuel, l =>
    match l with
    | [] => []
    | c :: rest =>
      if pyIsSpace c then ' ' :: collapseWs1Aux fuel (rest.dropWhile pyIsSpace)
      else c :: collapseWs1Aux fuel rest

/-- `re.sub(r'\s+', ' ', ·)`. -/
def collapseWs1 (l : List Char) : List Char := collapseWs1Aux l.length l

/-- `re.sub(r'%[^%]*%', '', ·)`, fuel-based: delete every `%...%` span (an
opening `%` with no later closing `%` is kept). -/
def removePercentSpansAux : Nat → List Char → List Char
  | 0, l => l
  | Nat.succ fuel, l =>
    match l with
    | [] => []
    | c :: rest =>
      if c = '%' then
        let rest' := rest.dropWhile (fun x => x ≠ '%')
        if rest' = [] then '%' :: removePercentSpansAux fuel rest
        else removePercentSpansAux fuel rest'.tail
      else c :: removePercentSpansAux fuel rest

/-- `re.sub(r'%[^%]*%', '', ·)`. -/
def removePercentSpans (l : List Char) : List Char := removePercentSpansAux l.length l

/-- Character class `[\d\-\.\s:/c]` of the `%`-code regex. -/
def isPctCodeChar (c : Char) : Bool :=
  ('0' ≤ c ∧ c ≤ '9') ∨ c = '-' ∨ c = '.' ∨ pyIsSpace c ∨ c = ':' ∨ c = '/' ∨ c = 'c'

/-- `re.sub(r'%[\d\-\.\s:/c]{2,}', '', ·)`, fuel-based: delete a `%`
followed by at least two characters of the class (greedy maximal run). -/
def removePercentCodesAux : Nat → List Char → List Char
  | 0, l => l
  | Nat.succ fuel, l =>
    match l with
    | [] => []
    | c :: rest =>
      if c = '%' then
        if (rest.takeWhile isPctCodeChar).length ≥ 2 then
          removePercentCodesAux fuel (rest.dropWhile isPctCodeChar)
        else '%' :: removePercentCodesAux fuel rest
      else c :: removePercentCodesAux fuel rest

/-- `re.sub(r'%[\d\-\.\s:/c]{2,}', '', ·)`. -/
def removePercentCodes (l : List Char) : List Char := removePercentCodesAux l.length l

/-- The keyword alternation `(Nation|Faculté|Université|Collège|Studium)`,
in the regex's order. -/
def kwList : List (List Char) :=
  ["Nation".toList, "Faculté".toList, "Université".toList, "Collège".toList,
   "Studium".toList]

/-- The lookbehind class `[a-zA-ZÀ-ÿ]`. -/
def isLookbehindLetter (c : Char) : Bool :=
  ('a' ≤ c ∧ c ≤ 'z') ∨ ('A' ≤ c ∧ c ≤ 'Z') ∨ ('À' ≤ c ∧ c ≤ 'ÿ')

/-- Try the keyword alternation at the head of the input; return the matched
keyword and the rest. -/
def tryKw (l : List Char) : Option (List Char × List Char) :=
  match kwList.find? (fun kw => kw.isPrefixOf l) with
  | some kw => some (kw, l.drop kw.length)
  | none => none

/-- `re.sub(r'(?<=[a-zA-ZÀ-ÿ])(Nation|…|Studium)', r' \1', ·)`: insert a
space before a glued institutional keyword.  `prev` is the character of the
original string just before the current position (the lookbehind); the fuel
starts at the list length, which bounds the number of scanning steps. -/
def insertKwSpacesAux : Nat → Char → List Char → List Char
  | 0, _, l => l
  | Nat.succ fuel, prev, l =>
    match l with
    | [] => []
    | c :: rest =>
      if isLookbehindLetter prev then
        match tryKw (c :: rest) with
        | some (kw, rem) =>
          ' ' :: (kw ++ insertKwSpacesAux fuel (kw.getLastD ' ') rem)
        | none => c :: insertKwSpacesAux fuel c rest
      else c :: insertKwSpacesAux fuel c rest

/-- Keyword-spacing pass; the initial lookbehind is an out-of-class sentinel
(the first position of the string has no preceding character). -/
def insertKwSpaces (l : List Char) : List Char :=
  insertKwSpacesAux l.length '\x00' l

/-- `while n and n[-1] in ').,:;': n = n[:-1].strip()` with fuel bounded by
the list length (each iteration removes at least one character). -/
def trailingPunctAux : Nat → List Char → List Char
  | 0, l => l
  | Nat.succ fuel, l =>
    match l.getLast? with
    | some c =>
      if c = ')' ∨ c = ',' ∨ c = '.' ∨ c = ':' ∨ c = ';' then
        trailingPunctAux fuel (stripChars l.dropLast)
      else l
    | none => l

/-- `TextCleaner.clean`: strip markers, collapse whitespace, trim trailing
punctuation; `none` when the result is empty or a stop word. -/
def clean : Option String → Option String
  | none => none
  | some text =>
    let t := stripChars text.toList
    let t := t.filter (fun c => c ≠ '$')
    let t := t.filter (fun c => c ≠ '£')
    let t := t.filter (fun c => c ≠ '*')
    let t := t.filter (fun c => c ≠ '?')
    let t := removeEmptyParens t
    let t := collapseWs2 t
    let t := stripChars (rstripChar '.' (rstripChar ',' (rstripChar ';' t)))
    let s := String.mk t
    if pyUpper s ∈ STOP_WORDS ∨ s = "" then none else some s

/-- `TextCleaner.clean_institution`. -/
def clean_institution (name : String) : Option String :=
  if name = "" then none
  else
    let n := stripChars name.toList
    let n := n.filter (fun c => c ≠ '$')
    let n := n.filter (fun c => c ≠ '£')
    let n := n.filter (fun c => c ≠ '*')
    let n := n.filter (fun c => c ≠ '?')
    let n := removePercentSpans n
    let n := removePercentCodes n
    let n := insertKwSpaces n
    let n := n.filter (fun c => c ≠ '%' ∧ c ≠ '$' ∧ c ≠ '£' ∧ c ≠ '*')
    let n := removeEmptyParens n
    let n := trailingPunctAux n.length n
    let n := collapseWs1 n
    let n := n.map (fun c => if c = '=' then ' ' else c)
    let n := stripChars n
    let s := String.mk n
    if s = "" ∨ pyUpper s ∈ STOP_WORDS then none else some s

/-- `TextCleaner.clean_person_name`. -/
def clean_person_name (raw : String) : Option String :=
  let n := raw.toList.filter (fun c => c ≠ '$')
  let n := n.filter (fun c => c ≠ '£')
  let n := n.map (fun c => if c = '=' then ' ' else c)
  let n := stripChars n
  let n := if n.contains ',' then stripChars (n.takeWhile (fun c => c ≠ ',')) else n
  let n := stripChars n
  let n := rstripChar '.' n
  let n := rstripChar ';' n
  let n := stripChars n
  let s := String.mk n
  if s = "" ∨ pyUpper s ∈ STOP_WORDS then none else some s

/-- NFD decomposition followed by ascii-encode-ignore, restricted to the
lowercase Latin-1 range produced by `pyLower` (characters above U+00FF and
undecomposable Latin-1 letters are dropped, as `encode("ascii","ignore")`
does). -/
def deaccentChar (c : Char) : List Char :=
  if c.toNat < 128 then [c]
  else if c = 'à' ∨ c = 'á' ∨ c = 'â' ∨ c = 'ã' ∨ c = 'ä' ∨ c = 'å' then ['a']
  else if c = 'ç' then ['c']
  else if c = 'è' ∨ c = 'é' ∨ c = 'ê' ∨ c = 'ë' then ['e']
  else if c = 'ì' ∨ c = 'í' ∨ c = 'î' ∨ c = 'ï' then ['i']
  else if c = 'ñ' then ['n']
  else if c = 'ò' ∨ c = 'ó' ∨ c = 'ô' ∨ c = 'õ' ∨ c = 'ö' then ['o']
  else if c = 'ù' ∨ c = 'ú' ∨ c = 'û' ∨ c = 'ü' then ['u']
  else if c = 'ý' ∨ c = 'ÿ' then ['y']
  else []

/-- `TextCleaner.normalize_classification`: lowercase, strip, remove
accents for fuzzy matching. -/
def normalize_classification (text : String) : String :=
  let t := stripChars (text.toList.map pyLowerChar)
  String.mk ((t.map deaccentChar).flatten)

/-! ## Input documents

The JSONL records, modelled as well-typed optional-field structures: a
`.get(key, default)` access in the source becomes a field with the default
baked in; list-valued sections default to `[]`. -/

/-- A `startDate`/`endDate` sub-object `{date, type}`.  In the extractor an
absent or empty (falsy) sub-dict is modelled as `none` at the use site. -/
structure DateEndpoint where
  date : Option String
  type : Option String
deriving DecidableEq, Repr

/-- One entry of `meta["dates"]`. -/
structure RawDate where
  type : Option String
  date : Option String
  startDate : Option DateEndpoint
  endDate : Option DateEndpoint
deriving DecidableEq, Repr

/-- A `meta` sub-object (`dates`, `places`, `institutions`, `names`); every
field defaults to the empty list when absent. -/
structure MetaObj where
  dates : List RawDate
  places : List String
  institutions : List String
  names : List String
deriving DecidableEq, Repr

/-- The empty `meta` (Python `item.get("meta", {})` default). -/
def emptyMeta : MetaObj := ⟨[], [], [], []⟩

/-- A `{value, meta}` item; `value` defaults to `""`. -/
structure Item where
  value : String
  meta : MetaObj
deriving DecidableEq, Repr

/-- `identity["status"]` may be a list of items or a plain string. -/
inductive StatusField where
  | items (l : List Item)
  | str (s : String)
deriving DecidableEq, Repr

/-- The `identity` section. -/
structure Identity where
  name : List Item
  nameVariant : List Item
  gender : List Item
  shortDescription : List Item
  status : StatusField
  datesOfActivity : List Item
  datesOfLife : List Item
deriving DecidableEq, Repr

/-- The `origin` section. -/
structure Origin where
  birthPlace : List Item
  diocese : List Item
deriving DecidableEq, Repr

/-- The `curriculum` section. -/
structure Curriculum where
  university : List Item
  grades : List Item
  universityCollege : List Item
deriving DecidableEq, Repr

/-- The `ecclesiasticalCareer` section. -/
structure EcclCareer where
  secularPosition : List Item
  regularOrder : List Item
deriving DecidableEq, Repr

/-- The `professionalCareer` section. -/
structure ProfCareer where
  universityFunction : List Item
deriving DecidableEq, Repr

/-- The `relationalInsertion` section. -/
structure RelIns where
  familyNetwork : List Item
  studentProfessorRelationships : List Item
deriving DecidableEq, Repr

/-- One `opus` entry of a `textualProduction` domain. -/
structure Opus where
  mainTitle : String
deriving DecidableEq, Repr

/-- One domain of `textualProduction` (a dict value that is itself a dict). -/
structure ProdDomain where
  opus : List Opus
deriving DecidableEq, Repr

/-- The `bibliography` section. -/
structure Bibliography where
  workReferences : List Item
  bookReferences : List Item
deriving DecidableEq, Repr

/-- A whole JSONL record.  The Python key `_id` is the field `id_`. -/
structure RecordJ where
  id_ : String
  title : String
  reference : String
  link : String
  identity : Identity
  origin : Origin
  curriculum : Curriculum
  ecclesiasticalCareer : EcclCareer
  professionalCareer : ProfCareer
  relationalInsertion : RelIns
  textualProduction : List (String × ProdDomain)
  bibliography : Bibliography
deriving DecidableEq, Repr

/-! ## `utils.py` helpers over records -/

/-- The qualifiers promoted from a top-level date `type`. -/
def qualifierPromotable (t : String) : Bool :=
  t = "BEFORE" ∨ t = "AFTER" ∨ t = "NEAR"

/-- A normalised date entry produced by `extract_dates`.  `start_date` and
`end_date` are `Option (Option String)`: the outer layer records whether the
key was set on the entry dict, the inner layer is the (possibly `None`)
stored value. -/
structure DateEntry where
  type : String
  start_date : Option (Option String)
  end_date : Option (Option String)
  start_qualifier : String
  end_qualifier : String
deriving DecidableEq, Repr

/-- The per-element body of `extract_dates`'s loop. -/
def extract_date_entry (d : RawDate) : DateEntry :=
  let top_type := d.type.getD "SIMPLE"
  let entry0 : DateEntry := ⟨d.type.getD "UNKNOWN", none, none, "SIMPLE", "SIMPLE"⟩
  let entry1 :=
    match d.startDate with
    | some sd =>
      { entry0 with start_date := some sd.date, start_qualifier := sd.type.getD "SIMPLE" }
    | none =>
      if d.date.isSome then
        { entry0 with start_date := some d.date,
                      start_qualifier :=
                        if qualifierPromotable top_type then top_type
                        else entry0.start_qualifier }
      else entry0
  let entry2 :=
    match d.endDate with
    | some ed =>
      { entry1 with end_date := some ed.date, end_qualifier := ed.type.getD "SIMPLE" }
    | none => entry1
  if entry2.start_date.isNone && entry2.end_date.isNone && d.date.isSome then
    { entry2 with start_date := some d.date,
                  start_qualifier :=
                    if qualifierPromotable top_type then top_type
                    else entry2.start_qualifier }
  else entry2

/-- `utils.extract_dates`. -/
def extract_dates (meta : MetaObj) : List DateEntry :=
  meta.dates.map extract_date_entry

/-- `utils.safe_list`: clean every entry, keep the truthy results.  (`clean`
never returns `some ""`, so Python's truthiness filter is `Option.isSome`.) -/
def safe_list (vals : List String) : List String :=
  vals.filterMap (fun v => clean (some v))

/-- The per-field uncertainty flags of `utils.detect_uncertainty`. -/
structure UncFlags where
  places : Bool
  institutions : Bool
deriving DecidableEq, Repr

/-- `utils.detect_uncertainty`: does any raw value of the field contain `?`. -/
def detect_uncertainty (meta : MetaObj) : UncFlags :=
  ⟨meta.places.any (fun v => v.contains '?'),
   meta.institutions.any (fun v => v.contains '?')⟩

/-! ## Graph node and edge records (`extractor.py` dict payloads) -/

/-- A Person node. -/
structure PersonN where
  person_id : String
  shortdesc : String
  genre : String
  person_type : String
  status : String
deriving DecidableEq, Repr

/-- A Name node. -/
structure NameN where
  name_id : String
  completename : String
deriving DecidableEq, Repr

/-- A GroupP node. -/
structure GroupN where
  group_id : String
  group_descr : String
  group_type : String
deriving DecidableEq, Repr

/-- A Place node. -/
structure PlaceN where
  place_id : String
  place_description : String
deriving DecidableEq, Repr

/-- A Zone node. -/
structure ZoneN where
  zone_id : String
  zone_description : String
deriving DecidableEq, Repr

/-- A Source node. -/
structure SourceN where
  source_id : String
  name : String
  reference : String
  link : String
deriving DecidableEq, Repr

/-- A Factoid node. -/
structure FactoidN where
  factoid_id : String
  factoidtype : String
  certainty : String
  duration : String
  notes : String
  description : String
  original_text : String
  problem : String
deriving DecidableEq, Repr

/-- A FactoidType node. -/
structure FactoidTypeN where
  factoidtype_id : String
  description : String
deriving DecidableEq, Repr

/-- A Role node. -/
structure RoleN where
  role_id : String
  role_description : String
deriving DecidableEq, Repr

/-- A Rank node. -/
structure RankN where
  rank_id : String
  rankname : String
deriving DecidableEq, Repr

/-- A Time node. -/
structure TimeN where
  time_id : String
  time_type : String
  begin : String
  finish : String
  begin_qualifier : String
  end_qualifier : String
  granularity : String
deriving DecidableEq, Repr

/-- An Object node. -/
structure ObjectN where
  object_id : String
  object_description : String
  value : String
deriving DecidableEq, Repr

/-- An ObjectType node. -/
structure ObjectTypeN where
  type_id : String
  type_description : String
deriving DecidableEq, Repr

/-- A Domain node. -/
structure DomainN where
  domain_id : String
  name : String
deriving DecidableEq, Repr

/-- An edge dict.  Optional attributes model keys that are present on some
edge kinds only (`none` = key absent). -/
structure Edge where
  type : String
  from_id : String
  from_label : String
  to_id : String
  to_label : String
  role : Option String
  rank : Option String
  certainty : Option String
  link_type : Option String
deriving DecidableEq, Repr

/-- A plain edge carrying only the five mandatory keys. -/
def mkEdge (ty fid flab tid tlab : String) : Edge :=
  ⟨ty, fid, flab, tid, tlab, none, none, none, none⟩

/-! ## Ordered association lists (Python `dict`) -/

/-- First-match lookup (`d[k]` / `d.get(k)`). -/
def alookup {α : Type} (k : String) : List (String × α) → Option α
  | [] => none
  | (k', v) :: rest => if k' = k then some v else alookup k rest

/-- `d.setdefault(k, v)`, state only. -/
def setdefault {α : Type} (m : List (String × α)) (k : String) (v : α) :
    List (String × α) :=
  match alookup k m with
  | some _ => m
  | none => m ++ [(k, v)]

/-- `d.setdefault(k, v)`, returning the resulting value as well. -/
def setdefault_get {α : Type} (m : List (String × α)) (k : String) (v : α) :
    α × List (String × α) :=
  match alookup k m with
  | some v0 => (v0, m)
  | none => (v, m ++ [(k, v)])

/-- `d[k] = v`: overwrite in place (insertion position kept), else append. -/
def aset {α : Type} (m : List (String × α)) (k : String) (v : α) :
    List (String × α) :=
  match alookup k m with
  | some _ => m.map (fun p => if p.1 = k then (k, v) else p)
  | none => m ++ [(k, v)]

/-! ## The extractor state (`DaphneGraphExtractor`) -/

/-- `config.FACTOID_TYPES`, in declaration order. -/
def FACTOID_TYPES : List (String × String) :=
  [("BIRTH", "Naissance / lieu d'origine"),
   ("DIOCESE_ORIGIN", "Origine diocésaine"),
   ("UNIVERSITY_STUDY", "Études universitaires"),
   ("ACADEMIC_GRADE", "Grade académique"),
   ("COLLEGE_MEMBERSHIP", "Appartenance à un collège"),
   ("SECULAR_POSITION", "Position ecclésiastique séculière"),
   ("REGULAR_ORDER", "Appartenance à un ordre régulier"),
   ("UNIVERSITY_TEACHING", "Enseignement universitaire"),
   ("FAMILY_RELATION", "Relation familiale"),
   ("STUDENT_TEACHER", "Relation maître-élève"),
   ("AUTHORSHIP", "Production textuelle"),
   ("ACTIVITY_PERIOD", "Période d'activité"),
   ("LIFE_PERIOD", "Période de vie")]

/-- `config.ROLES`, in declaration order. -/
def ROLES : List (String × String) :=
  [("SUBJECT", "Sujet principal du factoïde"),
   ("STUDENT", "Étudiant"),
   ("TEACHER", "Enseignant / Maître"),
   ("MEMBER", "Membre"),
   ("AUTHOR", "Auteur"),
   ("FAMILY_MEMBER", "Membre de la famille"),
   ("RELATED_PERSON", "Personne liée"),
   ("HOLDER", "Titulaire d'une position")]

/-- The mutable state of `DaphneGraphExtractor`.  The two classification
reference sets are those loaded from `nations.txt` / `disciplines.txt`
(external read-only data), kept as already-normalised entries. -/
structure Extractor where
  persons : List (String × PersonN)
  names : List (String × NameN)
  groups : List (String × GroupN)
  places : List (String × PlaceN)
  zones : List (String × ZoneN)
  sources : List (String × SourceN)
  factoids : List (String × FactoidN)
  factoid_types : List (String × FactoidTypeN)
  roles : List (String × RoleN)
  ranks : List (String × RankN)
  times : List (String × TimeN)
  objects : List (String × ObjectN)
  object_types : List (String × ObjectTypeN)
  domains : List (String × DomainN)
  group_canon : List (String × String)
  nations_set : List String
  disciplines_set : List String
  entity_class : List (String × String)
  edges : List Edge
  factoid_counter : Nat
deriving DecidableEq, Repr

/-- `DaphneGraphExtractor.__init__`: empty registries plus the pre-populated
FactoidType and Role reference nodes. -/
def initExtractor (nations disciplines : List String) : Extractor :=
  { persons := [], names := [], groups := [], places := [], zones := [],
    sources := [],
    factoids := [],
    factoid_types := FACTOID_TYPES.map (fun p => (p.1, ⟨p.1, p.2⟩)),
    roles := ROLES.map (fun p => (p.1, ⟨p.1, p.2⟩)),
    ranks := [], times := [], objects := [], object_types := [], domains := [],
    group_canon := [],
    nations_set := nations, disciplines_set := disciplines,
    entity_class := [],
    edges := [], factoid_counter := 0 }

/-! ## Identifier generators -/

/-- The character of a decimal digit. -/
def digitChar (d : Nat) : Char := Char.ofNat (48 + d)

/-- Decimal digit characters of `n`, most significant first; structural fuel
recursion so that concrete values reduce by `rfl` (`decDigits 0 = []`). -/
def decDigitsAux : Nat → Nat → List Char
  | 0, _ => []
  | Nat.succ _, 0 => []
  | Nat.succ fuel, n => decDigitsAux fuel (n / 10) ++ [digitChar (n % 10)]

/-- Decimal digits of `n` (empty for `0`). -/
def decDigits (n : Nat) : List Char := decDigitsAux n n

/-- Python `f"{n:06d}"` (zero-pad to width 6; wider numbers untouched;
`0` renders as six zeros, matching `"0".rjust(6, "0")`). -/
def fmt06 (n : Nat) : String :=
  String.mk (List.replicate (6 - (decDigits n).length) '0' ++ decDigits n)

/-- Python `f"{n:08d}"`. -/
def fmt08 (n : Nat) : String :=
  String.mk (List.replicate (8 - (decDigits n).length) '0' ++ decDigits n)

/-- A factoid identifier `f"F_{n:06d}"`. -/
def fmtFid (n : Nat) : String := "F_" ++ fmt06 n

/-- `DaphneGraphExtractor._new_factoid_id`. -/
def new_factoid_id (σ : Extractor) : String × Extractor :=
  let c := σ.factoid_counter + 1
  (fmtFid c, { σ with factoid_counter := c })

/-- Python's run-randomised `hash(str)` modelled by a fixed deterministic
polynomial hash; no verified claim depends on its value. -/
def pyhash (s : String) : Nat :=
  s.toList.foldl (fun a c => (a * 31 + c.toNat) % (2 ^ 61 - 1)) 7

/-! ## Time resolution (`_get_time_id`) -/

/-- `str(x).strip() if x else ""` for the endpoint arguments. -/
def coerceEndpoint : Option String → String
  | none => ""
  | some v => if v = "" then "" else pyStrip v

/-- The pure core of `_get_time_id`: the key and the node payload of the
branch taken, or `none` when both endpoints are blank.  The stateful wrapper
`get_time_id` below does the `setdefault`. -/
def timeKeyNode (start finish : Option String)
    (start_qualifier end_qualifier : String) : Option (String × TimeN) :=
  let s := coerceEndpoint start
  let e := coerceEndpoint finish
  if s = "" ∧ e = "" then none
  else
    let sq := if start_qualifier ≠ "SIMPLE" then start_qualifier else ""
    let eq1 := if end_qualifier ≠ "SIMPLE" then end_qualifier else ""
    if s ≠ "" ∧ e ≠ "" ∧ s ≠ e then
      let tag := (if sq ≠ "" then "_" ++ sq else "") ++ "_" ++ s ++
                 (if eq1 ≠ "" then "_" ++ eq1 else "") ++ "_" ++ e
      some ("TI" ++ tag,
            ⟨"TI" ++ tag, "TimeInterval", s, e, start_qualifier, end_qualifier, "year"⟩)
    else if s ≠ "" then
      let tag := (if sq ≠ "" then "_" ++ sq else "") ++ "_" ++ s
      some ("I" ++ tag, ⟨"I" ++ tag, "Instant", s, "", start_qualifier, "", "year"⟩)
    else
      let tag := (if eq1 ≠ "" then "_" ++ eq1 else "") ++ "_" ++ e
      some ("I" ++ tag, ⟨"I" ++ tag, "Instant", e, "", end_qualifier, "", "year"⟩)

/-- The Time key as a pure function of the four temporal fields. -/
def time_key (start finish : Option String) (sq eq1 : String) : Option String :=
  (timeKeyNode start finish sq eq1).map Prod.fst

/-- `DaphneGraphExtractor._get_time_id`: create or fetch a Time node,
returning its key (`None` when both endpoints are blank). -/
def get_time_id (σ : Extractor) (start finish : Option String)
    (start_qualifier end_qualifier : String) : Option String × Extractor :=
  match timeKeyNode start finish start_qualifier end_qualifier with
  | none => (none, σ)
  | some (k, node) => (some k, { σ with times := setdefault σ.times k node })

/-! ## Group classification (`_add_group`) and persons (`_add_person`) -/

/-- `DaphneGraphExtractor._add_group`: clean, deduplicate case-insensitively,
classify against the discipline then nation reference sets (defaulting to
institution), route the node, and cache the decision. -/
def add_group (σ : Extractor) (raw_name : String) : Option String × Extractor :=
  match clean_institution raw_name with
  | none => (none, σ)
  | some cname =>
    let low := pyStrip (pyLower cname)
    let dc := setdefault_get σ.group_canon low cname
    let display := dc.1
    let σ1 := { σ with group_canon := dc.2 }
    match alookup display σ1.entity_class with
    | some _ => (some display, σ1)
    | none =>
      let norm := normalize_classification cname
      if σ1.disciplines_set.contains norm then
        (some display,
         { σ1 with entity_class := aset σ1.entity_class display "discipline",
                   domains := setdefault σ1.domains display ⟨display, display⟩ })
      else if σ1.nations_set.contains norm then
        (some display,
         { σ1 with entity_class := aset σ1.entity_class display "nation",
                   groups := setdefault σ1.groups display ⟨display, "", "nation"⟩ })
      else
        (some display,
         { σ1 with entity_class := aset σ1.entity_class display "institution",
                   groups := setdefault σ1.groups display ⟨display, "", "institution"⟩ })

/-- `DaphneGraphExtractor._add_person`: create on first mention, then fill
`genre` / `shortdesc` / `status` only when currently blank. -/
def add_person (σ : Extractor) (name genre shortdesc person_type status : String) :
    String × Extractor :=
  let persons := setdefault σ.persons name ⟨name, shortdesc, genre, person_type, status⟩
  let p0 := (alookup name persons).getD ⟨name, shortdesc, genre, person_type, status⟩
  let p1 := if genre ≠ "" ∧ p0.genre = "" then { p0 with genre := genre } else p0
  let p2 := if shortdesc ≠ "" ∧ p1.shortdesc = "" then { p1 with shortdesc := shortdesc } else p1
  let p3 := if status ≠ "" ∧ p2.status = "" then { p2 with status := status } else p2
  (name, { σ with persons := aset persons name p3 })

/-! ## Factoid creation and linking -/

/-- `DaphneGraphExtractor._make_factoid`: fresh sequential identifier, the
Factoid node, and its unconditional HAS_TYPE and REFER_TO edges. -/
def make_factoid (σ : Extractor) (fiche_id ftype description original_text certainty : String) :
    String × Extractor :=
  let r := new_factoid_id σ
  let fid := r.1
  let σ1 := r.2
  let node : FactoidN := ⟨fid, ftype, certainty, "", "", description, original_text, ""⟩
  let σ2 := { σ1 with factoids := aset σ1.factoids fid node }
  let σ3 := { σ2 with edges := σ2.edges ++ [mkEdge "HAS_TYPE" fid "Factoid" ftype "FactoidType"] }
  let source_id := "SRC_" ++ fiche_id
  let σ4 := { σ3 with edges := σ3.edges ++ [mkEdge "REFER_TO" source_id "Source" fid "Factoid"] }
  (fid, σ4)

/-- `DaphneGraphExtractor._link_participant`. -/
def link_participant (σ : Extractor) (factoid_id person_name role rank : String) : Extractor :=
  { σ with edges := σ.edges ++
      [⟨"PARTICIPATE", factoid_id, "Factoid", person_name, "Person",
        some role, some rank, none, none⟩] }

/-- A per-edge certainty attribute: present only when the flag is truthy. -/
def certOpt (certainty : String) : Option String :=
  if certainty ≠ "" then some certainty else none

/-- `DaphneGraphExtractor._link_place`. -/
def link_place (σ : Extractor) (factoid_id place_name certainty : String) : Extractor :=
  let σ1 := { σ with places := setdefault σ.places place_name ⟨place_name, place_name⟩ }
  { σ1 with edges := σ1.edges ++
      [⟨"TOOK_PLACE_AT", factoid_id, "Factoid", place_name, "Place",
        none, none, certOpt certainty, none⟩] }

/-- `DaphneGraphExtractor._link_group`: route by the cached classification
(discipline → IN_DOMAIN/Domain, otherwise AT_GROUP/GroupP). -/
def link_group (σ : Extractor) (factoid_id group_name certainty : String) : Extractor :=
  let cls := (alookup group_name σ.entity_class).getD "institution"
  let e : Edge :=
    if cls = "discipline" then
      ⟨"IN_DOMAIN", factoid_id, "Factoid", group_name, "Domain",
       none, none, certOpt certainty, none⟩
    else
      ⟨"AT_GROUP", factoid_id, "Factoid", group_name, "GroupP",
       none, none, certOpt certainty, none⟩
  { σ with edges := σ.edges ++ [e] }

/-- `DaphneGraphExtractor._link_time`. -/
def link_time (σ : Extractor) (factoid_id : String) (start finish : Option String)
    (start_qualifier end_qualifier : String) : Extractor :=
  let r := get_time_id σ start finish start_qualifier end_qualifier
  match r.1 with
  | some tid => { r.2 with edges := r.2.edges ++ [mkEdge "OCCURRED_AT" factoid_id "Factoid" tid "Time"] }
  | none => r.2

/-- `DaphneGraphExtractor._link_time_from_dates`: first date entry only. -/
def link_time_from_dates (σ : Extractor) (factoid_id : String)
    (dates : List DateEntry) : Extractor :=
  match dates with
  | [] => σ
  | d :: _ =>
    link_time σ factoid_id d.start_date.join d.end_date.join
      d.start_qualifier d.end_qualifier

/-! ## Per-record extraction (`process_record` and its section processors) -/

/-- Python truthiness of an optional string (`None` and `""` are falsy). -/
def pyTruthy : Option String → Bool
  | none => false
  | some s => s ≠ ""

/-- The primary person name of a record:
`TextCleaner.clean(name_items[0].get("value", "")) if name_items else None`. -/
def person_name_of (rec : RecordJ) : Option String :=
  match rec.identity.name with
  | [] => none
  | item :: _ => clean (some item.value)

/-- `DaphneGraphExtractor._process_identity`: Source node, Person node,
BELONGS_TO / MAIN_NAME / NAMED edges.  Returns `none` (state untouched)
when the record has no usable primary name. -/
def process_identity (σ : Extractor) (rec : RecordJ) (source_id : String) :
    Option String × Extractor :=
  match person_name_of rec with
  | none => (none, σ)
  | some person_name =>
    let identity := rec.identity
    let srcNode : SourceN := ⟨source_id, rec.title, rec.reference, rec.link⟩
    let σ := { σ with sources := aset σ.sources source_id srcNode }
    let gender := match identity.gender with | [] => "" | i :: _ => i.value
    let short_desc := match identity.shortDescription with | [] => "" | i :: _ => i.value
    let id_status :=
      match identity.status with
      | StatusField.items [] => ""
      | StatusField.items (i :: _) => i.value
      | StatusField.str s => s
    let σ := (add_person σ person_name gender short_desc "PhysicalPerson" id_status).2
    let σ := { σ with edges := σ.edges ++
      [mkEdge "BELONGS_TO" person_name "Person" source_id "Source"] }
    let main_name_id := person_name
    let σ := { σ with names := setdefault σ.names main_name_id ⟨main_name_id, main_name_id⟩ }
    let σ := { σ with edges := σ.edges ++
      [mkEdge "MAIN_NAME" person_name "Person" main_name_id "Name"] }
    let σ := identity.nameVariant.foldl (fun σ nv =>
      match clean (some nv.value) with
      | some v =>
        if v ≠ person_name then
          let σ := { σ with names := setdefault σ.names v ⟨v, v⟩ }
          { σ with edges := σ.edges ++ [mkEdge "NAMED" person_name "Person" v "Name"] }
        else σ
      | none => σ) σ
    (some person_name, σ)

/-- `DaphneGraphExtractor._process_activity_dates`. -/
def process_activity_dates (σ : Extractor) (rec : RecordJ)
    (fiche_id person_name : String) : Extractor :=
  rec.identity.datesOfActivity.foldl (fun σ item =>
    (extract_dates item.meta).foldl (fun σ dobj =>
      let ds := dobj.start_date.join
      let de := dobj.end_date.join
      if pyTruthy ds ∨ pyTruthy de then
        let r := make_factoid σ fiche_id "ACTIVITY_PERIOD"
          ("Période d'activité de " ++ person_name) "" ""
        let σ := link_participant r.2 r.1 person_name "SUBJECT" ""
        link_time σ r.1 ds de dobj.start_qualifier dobj.end_qualifier
      else σ) σ) σ

/-- `DaphneGraphExtractor._process_life_dates`. -/
def process_life_dates (σ : Extractor) (rec : RecordJ)
    (fiche_id person_name : String) : Extractor :=
  rec.identity.datesOfLife.foldl (fun σ item =>
    (extract_dates item.meta).foldl (fun σ dobj =>
      let ds := dobj.start_date.join
      let de := dobj.end_date.join
      if pyTruthy ds ∨ pyTruthy de then
        let r := make_factoid σ fiche_id "LIFE_PERIOD"
          ("Période de vie de " ++ person_name) "" ""
        let σ := link_participant r.2 r.1 person_name "SUBJECT" ""
        link_time σ r.1 ds de dobj.start_qualifier dobj.end_qualifier
      else σ) σ) σ

/-- `DaphneGraphExtractor._process_origin`: birthPlace then diocese. -/
def process_origin (σ : Extractor) (rec : RecordJ)
    (fiche_id person_name : String) : Extractor :=
  let σ := rec.origin.birthPlace.foldl (fun σ item =>
    let meta := item.meta
    let places := safe_list meta.places
    let unc := detect_uncertainty meta
    if places ≠ [] then
      let r := make_factoid σ fiche_id "BIRTH" ("Naissance de " ++ person_name) "" ""
      let σ := link_participant r.2 r.1 person_name "SUBJECT" ""
      let place_cert := if unc.places then "uncertain" else ""
      places.foldl (fun σ p => link_place σ r.1 p place_cert) σ
    else σ) σ
  rec.origin.diocese.foldl (fun σ item =>
    let meta := item.meta
    (safe_list meta.institutions).foldl (fun σ inst =>
      let g := add_group σ inst
      match g.1 with
      | some gname =>
        let σ := { g.2 with zones := setdefault g.2.zones gname ⟨gname, gname⟩ }
        let r := make_factoid σ fiche_id "DIOCESE_ORIGIN"
          ("Origine diocésaine de " ++ person_name ++ ": " ++ gname) "" ""
        let σ := link_participant r.2 r.1 person_name "SUBJECT" ""
        { σ with edges := σ.edges ++ [mkEdge "TOOK_PLACE_AT_ZONE" r.1 "Factoid" gname "Zone"] }
      | none => g.2) σ) σ

/-- The per-item body of the `grades` loop of `_process_curriculum`.
An ACADEMIC_GRADE factoid and its PARTICIPATE(STUDENT) edge are emitted for
every item; the Rank node only for a truthy cleaned grade value. -/
def grades_item (σ : Extractor) (fiche_id person_name : String) (item : Item) : Extractor :=
  let meta := item.meta
  let unc := detect_uncertainty meta
  let grade_val := (clean (some item.value)).getD ""
  let dates := extract_dates meta
  let places := safe_list meta.places
  let r := make_factoid σ fiche_id "ACADEMIC_GRADE"
    ("Grade de " ++ person_name ++ ": " ++ grade_val) "" ""
  let σ := link_participant r.2 r.1 person_name "STUDENT" grade_val
  let σ := link_time_from_dates σ r.1 dates
  let place_cert := if unc.places then "uncertain" else ""
  let σ := places.foldl (fun σ p => link_place σ r.1 p place_cert) σ
  if grade_val ≠ "" then
    { σ with ranks := setdefault σ.ranks grade_val ⟨grade_val, grade_val⟩ }
  else σ

/-- `DaphneGraphExtractor._process_curriculum`: university, grades,
universityCollege. -/
def process_curriculum (σ : Extractor) (rec : RecordJ)
    (fiche_id person_name : String) : Extractor :=
  let σ := rec.curriculum.university.foldl (fun σ item =>
    let meta := item.meta
    let unc := detect_uncertainty meta
    let dates := extract_dates meta
    let places := safe_list meta.places
    let institutions := safe_list meta.institutions
    if places ≠ [] ∨ institutions ≠ [] then
      let r := make_factoid σ fiche_id "UNIVERSITY_STUDY" ("Études de " ++ person_name) "" ""
      let σ := link_participant r.2 r.1 person_name "STUDENT" ""
      let σ := link_time_from_dates σ r.1 dates
      let place_cert := if unc.places then "uncertain" else ""
      let σ := places.foldl (fun σ p => link_place σ r.1 p place_cert) σ
      let inst_cert := if unc.institutions then "uncertain" else ""
      institutions.foldl (fun σ inst =>
        let g := add_group σ inst
        match g.1 with
        | some gname => link_group g.2 r.1 gname inst_cert
        | none => g.2) σ
    else σ) σ
  let σ := rec.curriculum.grades.foldl (fun σ item => grades_item σ fiche_id person_name item) σ
  rec.curriculum.universityCollege.foldl (fun σ item =>
    let meta := item.meta
    let unc := detect_uncertainty meta
    (safe_list meta.institutions).foldl (fun σ inst =>
      let g := add_group σ inst
      match g.1 with
      | some gname =>
        let inst_cert := if unc.institutions then "uncertain" else ""
        let r := make_factoid g.2 fiche_id "COLLEGE_MEMBERSHIP"
          (person_name ++ " membre de " ++ gname) "" ""
        let σ := link_participant r.2 r.1 person_name "MEMBER" ""
        link_group σ r.1 gname inst_cert
      | none => g.2) σ) σ

/-- `DaphneGraphExtractor._process_ecclesiastical_career`: secularPosition
then regularOrder. -/
def process_ecclesiastical_career (σ : Extractor) (rec : RecordJ)
    (fiche_id person_name : String) : Extractor :=
  let σ := rec.ecclesiasticalCareer.secularPosition.foldl (fun σ item =>
    let meta := item.meta
    let unc := detect_uncertainty meta
    let role_val := (clean (some item.value)).getD ""
    let dates := extract_dates meta
    (safe_list meta.institutions).foldl (fun σ inst =>
      let g := add_group σ inst
      match g.1 with
      | some gname =>
        let inst_cert := if unc.institutions then "uncertain" else ""
        let r := make_factoid g.2 fiche_id "SECULAR_POSITION"
          (person_name ++ ": " ++ role_val ++ " a " ++ gname) "" ""
        let σ := link_participant r.2 r.1 person_name "HOLDER" ""
        let σ := link_group σ r.1 gname inst_cert
        link_time_from_dates σ r.1 dates
      | none => g.2) σ) σ
  rec.ecclesiasticalCareer.regularOrder.foldl (fun σ item =>
    let meta := item.meta
    let unc := detect_uncertainty meta
    let role_val := (clean (some item.value)).getD ""
    let dates := extract_dates meta
    (safe_list meta.institutions).foldl (fun σ inst =>
      let g := add_group σ inst
      match g.1 with
      | some gname =>
        let inst_cert := if unc.institutions then "uncertain" else ""
        let r := make_factoid g.2 fiche_id "REGULAR_ORDER"
          (person_name ++ ": " ++ role_val ++ " dans " ++ gname) "" ""
        let σ := link_participant r.2 r.1 person_name "MEMBER" ""
        let σ := link_group σ r.1 gname inst_cert
        link_time_from_dates σ r.1 dates
      | none => g.2) σ) σ

/-- `DaphneGraphExtractor._process_professional_career`: universityFunction. -/
def process_professional_career (σ : Extractor) (rec : RecordJ)
    (fiche_id person_name : String) : Extractor :=
  rec.professionalCareer.universityFunction.foldl (fun σ item =>
    let meta := item.meta
    let unc := detect_uncertainty meta
    let function_val := (clean (some item.value)).getD ""
    let dates := extract_dates meta
    let places := safe_list meta.places
    let institutions := safe_list meta.institutions
    if places ≠ [] ∨ institutions ≠ [] then
      let r := make_factoid σ fiche_id "UNIVERSITY_TEACHING"
        (person_name ++ ": " ++ function_val) "" ""
      let σ := link_participant r.2 r.1 person_name "TEACHER" ""
      let σ := link_time_from_dates σ r.1 dates
      let place_cert := if unc.places then "uncertain" else ""
      let σ := places.foldl (fun σ p => link_place σ r.1 p place_cert) σ
      let inst_cert := if unc.institutions then "uncertain" else ""
      institutions.foldl (fun σ inst =>
        let g := add_group σ inst
        match g.1 with
        | some gname => link_group g.2 r.1 gname inst_cert
        | none => g.2) σ
    else σ) σ

/-- `DaphneGraphExtractor._process_relationships`: familyNetwork then
studentProfessorRelationships. -/
def process_relationships (σ : Extractor) (rec : RecordJ)
    (fiche_id person_name : String) : Extractor :=
  let σ := rec.relationalInsertion.familyNetwork.foldl (fun σ item =>
    let relation_type := (clean (some item.value)).getD ""
    item.meta.names.foldl (fun σ raw_name =>
      match clean_person_name raw_name with
      | some cname =>
        let σ := (add_person σ cname "" "" "PhysicalPerson" "").2
        let r := make_factoid σ fiche_id "FAMILY_RELATION"
          ("Relation familiale: " ++ person_name ++ " - " ++ cname ++
           " (" ++ relation_type ++ ")") "" ""
        let σ := link_participant r.2 r.1 person_name "SUBJECT" ""
        link_participant σ r.1 cname "FAMILY_MEMBER" ""
      | none => σ) σ) σ
  rec.relationalInsertion.studentProfessorRelationships.foldl (fun σ item =>
    item.meta.names.foldl (fun σ raw_name =>
      match clean_person_name raw_name with
      | some cname =>
        let σ := (add_person σ cname "" "" "PhysicalPerson" "").2
        let r := make_factoid σ fiche_id "STUDENT_TEACHER"
          ("Relation maître-élève: " ++ person_name ++ " - " ++ cname) "" ""
        let σ := link_participant r.2 r.1 person_name "STUDENT" ""
        link_participant σ r.1 cname "TEACHER" ""
      | none => σ) σ) σ

/-- `DaphneGraphExtractor._process_production`: authored works grouped by
subject domain. -/
def process_production (σ : Extractor) (rec : RecordJ)
    (fiche_id person_name : String) : Extractor :=
  rec.textualProduction.foldl (fun σ dd =>
    let domain_name := dd.1
    let σ := if domain_name ≠ "" then
        { σ with domains := setdefault σ.domains domain_name ⟨domain_name, domain_name⟩ }
      else σ
    dd.2.opus.foldl (fun σ opus =>
      match clean (some opus.mainTitle) with
      | some main_title =>
        let σ := { σ with objects := setdefault σ.objects main_title ⟨main_title, main_title, main_title⟩ }
        let otNode : ObjectTypeN := ⟨"literary_work", "Œuvre littéraire / intellectuelle"⟩
        let σ := { σ with object_types := setdefault σ.object_types "literary_work" otNode }
        let r := make_factoid σ fiche_id "AUTHORSHIP"
          (person_name ++ " auteur de \x27" ++ main_title ++ "\x27") "" ""
        let σ := link_participant r.2 r.1 person_name "AUTHOR" ""
        { σ with edges := σ.edges ++ [mkEdge "OF_TYPE" r.1 "Factoid" main_title "Object"] }
      | none => σ) σ) σ

/-- `DaphneGraphExtractor._process_bibliography`: citation cross-links. -/
def process_bibliography (σ : Extractor) (rec : RecordJ) (fiche_id : String) : Extractor :=
  let go := fun (bib_section : String) (items : List Item) (σ : Extractor) =>
    items.foldl (fun σ item =>
      match clean (some item.value) with
      | some citation =>
        let bib_src_id := "BIB_" ++ fmt08 (pyhash citation % 10 ^ 8)
        let σ := { σ with sources := setdefault σ.sources bib_src_id ⟨bib_src_id, citation, "", ""⟩ }
        { σ with edges := σ.edges ++
          [⟨"LINKED_TO", "SRC_" ++ fiche_id, "Source", bib_src_id, "Source",
            none, none, none, some bib_section⟩] }
      | none => σ) σ
  let σ := go "workReferences" rec.bibliography.workReferences σ
  go "bookReferences" rec.bibliography.bookReferences σ

/-- `DaphneGraphExtractor.process_record`: the per-record pipeline, sections
in their fixed order; a record without a usable primary name is dropped. -/
def process_record (σ : Extractor) (rec : RecordJ) : Extractor :=
  let fiche_id := rec.id_
  let source_id := "SRC_" ++ fiche_id
  let idres := process_identity σ rec source_id
  match idres.1 with
  | none => idres.2
  | some person_name =>
    let σ := idres.2
    let σ := process_activity_dates σ rec fiche_id person_name
    let σ := process_life_dates σ rec fiche_id person_name
    let σ := process_origin σ rec fiche_id person_name
    let σ := process_curriculum σ rec fiche_id person_name
    let σ := process_ecclesiastical_career σ rec fiche_id person_name
    let σ := process_professional_career σ rec fiche_id person_name
    let σ := process_relationships σ rec fiche_id person_name
    let σ := process_production σ rec fiche_id person_name
    process_bibliography σ rec fiche_id

/-! ## Sample records (used by concrete witnesses) -/

/-- A record skeleton with every optional section empty. -/
def emptyRecord : RecordJ :=
  { id_ := "R1", title := "", reference := "", link := "",
    identity := ⟨[], [], [], [], StatusField.items [], [], []⟩,
    origin := ⟨[], []⟩, curriculum := ⟨[], [], []⟩,
    ecclesiasticalCareer := ⟨[], []⟩, professionalCareer := ⟨[]⟩,
    relationalInsertion := ⟨[], []⟩, textualProduction := [],
    bibliography := ⟨[], []⟩ }

/-- A record with the usable primary name "Johannes" and nothing else. -/
def recJohannes : RecordJ :=
  { emptyRecord with
    identity := ⟨[⟨"Johannes", emptyMeta⟩], [], [], [], StatusField.items [], [], []⟩ }

/-- A record whose only date entry is the flat date "1350" with top-level
qualifier BEFORE (spec end-to-end scenario 2). -/
def rec1350 : RecordJ :=
  { emptyRecord with
    identity := ⟨[⟨"Johannes", emptyMeta⟩], [], [], [], StatusField.items [],
      [⟨"", ⟨[⟨some "BEFORE", some "1350", none, none⟩], [], [], []⟩⟩], []⟩ }

/-- A record with a stop-word primary name but a birth-place section
(spec end-to-end scenario 4). -/
def recStopName : RecordJ :=
  { emptyRecord with
    identity := ⟨[⟨" inconnu ", emptyMeta⟩], [], [], [], StatusField.items [], [], []⟩,
    origin := ⟨[⟨"", ⟨[], ["Parisius"], [], []⟩⟩], []⟩ }

/-! ## Invariant material (factoid identifiers, edge counts) -/

/-- The numeric value of a decimal digit character. -/
def digitVal (c : Char) : Nat := c.toNat - 48

/-- The numeric value of a digit string (leading zeros contribute nothing). -/
def valOfDigits (l : List Char) : Nat := l.foldl (fun a c => a * 10 + digitVal c) 0

/-- The factoid identifiers of the store, in creation order. -/
def factoidIds (σ : Extractor) : List String := σ.factoids.map Prod.fst

/-- The number of HAS_TYPE edges leaving the factoid `fid`. -/
def countHT (fid : String) (es : List Edge) : Nat :=
  es.countP (fun e => e.type = "HAS_TYPE" ∧ e.from_id = fid)

/-- The number of REFER_TO edges entering the factoid `fid`. -/
def countRT (fid : String) (es : List Edge) : Nat :=
  es.countP (fun e => e.type = "REFER_TO" ∧ e.to_id = fid)

/-- The store invariant: factoid identifiers are exactly `F_000001 ..
F_{counter}` in creation order; every factoid has exactly one HAS_TYPE and
one REFER_TO edge; and every HAS_TYPE (resp. REFER_TO) edge leaves (resp.
enters) a registered factoid. -/
def StoreInv (σ : Extractor) : Prop :=
  factoidIds σ = (List.range σ.factoid_counter).map (fun k => fmtFid (k + 1))
  ∧ (∀ fid ∈ factoidIds σ, countHT fid σ.edges = 1 ∧ countRT fid σ.edges = 1)
  ∧ (∀ e ∈ σ.edges, (e.type = "HAS_TYPE" → e.from_id ∈ factoidIds σ)
      ∧ (e.type = "REFER_TO" → e.to_id ∈ factoidIds σ))

/-- A whole run: fold `process_record` over the input stream from the
freshly initialised extractor. -/
def processRecords (nations disciplines : List String) (recs : List RecordJ) : Extractor :=
  recs.foldl process_record (initExtractor nations disciplines)

/-- Every optional section of a record absent/empty (the identity section
may still be present). -/
def emptySections (rec : RecordJ) : Prop :=
  rec.identity.datesOfActivity = [] ∧ rec.identity.datesOfLife = []
  ∧ rec.origin.birthPlace = [] ∧ rec.origin.diocese = []
  ∧ rec.curriculum.university = [] ∧ rec.curriculum.grades = []
  ∧ rec.curriculum.universityCollege = []
  ∧ rec.ecclesiasticalCareer.secularPosition = []
  ∧ rec.ecclesiasticalCareer.regularOrder = []
  ∧ rec.professionalCareer.universityFunction = []
  ∧ rec.relationalInsertion.familyNetwork = []
  ∧ rec.relationalInsertion.studentProfessorRelationships = []
  ∧ rec.textualProduction = []
  ∧ rec.bibliography.workReferences = [] ∧ rec.bibliography.bookReferences = []

/-! ## Association-list lemmas -/

theorem alookup_eq_none_forall {α : Type} {k : String} {m : List (String × α)}
    (h : alookup k m = none) : ∀ p ∈ m, p.1 ≠ k := by
  induction m with
  | nil => intro p hp; cases hp
  | cons q rest ih =>
    intro p hp
    simp only [alookup] at h
    split at h
    · cases h
    · rcases List.mem_cons.mp hp with rfl | hp2
      · assumption
      · exact ih h p hp2

theorem alookup_append_sing_self {α : Type} (k : String) (m : List (String × α)) (v : α)
    (h : alookup k m = none) : alookup k (m ++ [(k, v)]) = some v := by
  induction m with
  | nil => simp [alookup]
  | cons q rest ih =>
    simp only [alookup] at h ⊢
    split at h
    · cases h
    · simp_all [alookup]

theorem alookup_append_sing_other {α : Type} (k k' : String) (m : List (String × α)) (v : α)
    (h : k' ≠ k) : alookup k (m ++ [(k', v)]) = alookup k m := by
  induction m with
  | nil => simp [alookup, h]
  | cons q rest ih => simp only [alookup, List.cons_append]; split <;> simp_all

theorem alookup_setdefault_isSome {α : Type} (m : List (String × α)) (k : String) (v : α) :
    (alookup k (setdefault m k v)).isSome := by
  unfold setdefault
  cases h : alookup k m with
  | some w => simp [h]
  | none => simp [alookup_append_sing_self k m v h]

theorem setdefault_of_isSome {α : Type} {m : List (String × α)} {k : String}
    (h : (alookup k m).isSome) (v : α) : setdefault m k v = m := by
  unfold setdefault
  cases hl : alookup k m with
  | some w => simp
  | none => rw [hl] at h; cases h

theorem setdefault_idem {α : Type} (m : List (String × α)) (k : String) (v v' : α) :
    setdefault (setdefault m k v) k v' = setdefault m k v :=
  setdefault_of_isSome (alookup_setdefault_isSome m k v) v'

/-- A structure update that rewrites a field to itself is the identity. -/
theorem extractor_eta (σ : Extractor) : { σ with times := σ.times } = σ := rfl

/-! ## C1: determinism of Time keys -/

theorem ne_of_length_ne {a b : String} (h : a.length ≠ b.length) : a ≠ b :=
  fun he => h (congrArg String.length he)

theorem tk_purity (σ : Extractor) (s e : Option String) (q1 q2 : String) :
    (get_time_id σ s e q1 q2).1 = time_key s e q1 q2 := by
  cases h : timeKeyNode s e q1 q2 with
  | none => simp [get_time_id, time_key, h]
  | some p => cases p with
    | mk k node => simp [get_time_id, time_key, h]

theorem tk_idem (σ : Extractor) (s e : Option String) (q1 q2 : String) :
    get_time_id (get_time_id σ s e q1 q2).2 s e q1 q2 = get_time_id σ s e q1 q2 := by
  cases h : timeKeyNode s e q1 q2 with
  | none => simp [get_time_id, h]
  | some p =>
    cases p with
    | mk k node =>
      simp only [get_time_id, h]
      rw [setdefault_idem]

theorem tk_start_swap (s e : Option String) (q : String)
    (hq : q = "BEFORE" ∨ q = "AFTER" ∨ q = "NEAR")
    (hcs : coerceEndpoint s ≠ "") :
    time_key s e q "SIMPLE" ≠ time_key s e "SIMPLE" "SIMPLE" := by
  have hqs : q ≠ "SIMPLE" := by rcases hq with rfl | rfl | rfl <;> decide
  have hq0 : q ≠ "" := by rcases hq with rfl | rfl | rfl <;> decide
  have hq1 : 1 ≤ q.length := by rcases hq with rfl | rfl | rfl <;> decide
  revert hcs
  simp only [time_key, timeKeyNode]
  generalize coerceEndpoint s = cs
  generalize coerceEndpoint e = ce
  intro hcs
  by_cases hce : ce = ""
  · subst hce
    simp [hcs, hqs, hq0]
    intro heq
    have hlen := congrArg String.length heq
    simp only [String.length_append] at hlen
    omega
  · by_cases hcse : cs = ce
    · subst hcse
      simp [hcs, hqs, hq0]
      intro heq
      have hlen := congrArg String.length heq
      simp only [String.length_append] at hlen
      omega
    · simp [hcs, hce, hcse, hqs, hq0]
      intro heq
      have hlen := congrArg String.length heq
      simp only [String.length_append] at hlen
      omega

theorem tk_end_swap (s e : Option String) (q : String)
    (hq : q = "BEFORE" ∨ q = "AFTER" ∨ q = "NEAR")
    (hce : coerceEndpoint e ≠ "")
    (hind : coerceEndpoint s = "" ∨ coerceEndpoint s ≠ coerceEndpoint e) :
    time_key s e "SIMPLE" q ≠ time_key s e "SIMPLE" "SIMPLE" := by
  have hqs : q ≠ "SIMPLE" := by rcases hq with rfl | rfl | rfl <;> decide
  have hq0 : q ≠ "" := by rcases hq with rfl | rfl | rfl <;> decide
  have hq1 : 1 ≤ q.length := by rcases hq with rfl | rfl | rfl <;> decide
  revert hce hind
  simp only [time_key, timeKeyNode]
  generalize coerceEndpoint s = cs
  generalize coerceEndpoint e = ce
  intro hce hind
  rcases hind with hcs | hcse
  · subst hcs
    simp [hce, hqs, hq0]
    intro heq
    have hlen := congrArg String.length heq
    simp only [String.length_append] at hlen
    omega
  · by_cases hcs : cs = ""
    · subst hcs
      simp [hce, hqs, hq0]
      intro heq
      have hlen := congrArg String.length heq
      simp only [String.length_append] at hlen
      omega
    · simp [hcs, hce, hcse, hqs, hq0]
      intro heq
      have hlen := congrArg String.length heq
      simp only [String.length_append] at hlen
      omega

/-- C1 counterexample: the tuple (start = "1350", end absent, startQualifier
SIMPLE) has a non-blank endpoint, and swapping only the END qualifier
between SIMPLE and the non-SIMPLE value BEFORE yields the SAME Time key as
the all-SIMPLE tuple — the qualifier of the absent endpoint never reaches
the key — refuting the claim's distinctness clause at this concrete input. -/
theorem claim_C1_counterexample :
    coerceEndpoint (some "1350") ≠ "" ∧
    time_key (some "1350") none "SIMPLE" "BEFORE" =
      time_key (some "1350") none "SIMPLE" "SIMPLE" := by
  decide

/-- C1 (amended): the Time key is a pure function of the four temporal
fields (the key returned by the stateful `_get_time_id` equals the pure
`time_key`, and resolving the same tuple twice returns the same key and
leaves the state unchanged — one single Time node).  Swapping the START
qualifier between SIMPLE and BEFORE/AFTER/NEAR changes the key whenever the
start endpoint is non-blank; swapping the END qualifier changes the key
whenever the end endpoint is non-blank and actually used by the key (the
start is blank, or differs from the end).  The claim's stronger clause —
any single qualifier swap changes the key — fails when the swapped
qualifier belongs to an endpoint the key does not encode
(`claim_C1_counterexample`). -/
theorem claim_C1_amended :
    (∀ (σ : Extractor) (s e : Option String) (q1 q2 : String),
        (get_time_id σ s e q1 q2).1 = time_key s e q1 q2)
  ∧ (∀ (σ : Extractor) (s e : Option String) (q1 q2 : String),
        get_time_id (get_time_id σ s e q1 q2).2 s e q1 q2 = get_time_id σ s e q1 q2)
  ∧ (∀ (s e : Option String) (q : String),
        (q = "BEFORE" ∨ q = "AFTER" ∨ q = "NEAR") → coerceEndpoint s ≠ "" →
        time_key s e q "SIMPLE" ≠ time_key s e "SIMPLE" "SIMPLE")
  ∧ (∀ (s e : Option String) (q : String),
        (q = "BEFORE" ∨ q = "AFTER" ∨ q = "NEAR") → coerceEndpoint e ≠ "" →
        (coerceEndpoint s = "" ∨ coerceEndpoint s ≠ coerceEndpoint e) →
        time_key s e "SIMPLE" q ≠ time_key s e "SIMPLE" "SIMPLE") :=
  ⟨tk_purity, tk_idem, tk_start_swap, tk_end_swap⟩

/-- C1 witness: the amended theorem applied at concrete inputs — a
start-qualifier swap on the interval (1300, 1400), an end-qualifier swap on
the same interval, and double resolution of ("1350", absent, BEFORE). -/
theorem claim_C1_witness :
    time_key (some "1300") (some "1400") "BEFORE" "SIMPLE" ≠
      time_key (some "1300") (some "1400") "SIMPLE" "SIMPLE"
  ∧ time_key (some "1300") (some "1400") "SIMPLE" "NEAR" ≠
      time_key (some "1300") (some "1400") "SIMPLE" "SIMPLE"
  ∧ get_time_id (get_time_id (initExtractor [] []) (some "1350") none "BEFORE" "SIMPLE").2
      (some "1350") none "BEFORE" "SIMPLE" =
      get_time_id (initExtractor [] []) (some "1350") none "BEFORE" "SIMPLE" :=
  ⟨claim_C1_amended.2.2.1 _ _ _ (Or.inl rfl) (by decide),
   claim_C1_amended.2.2.2 _ _ _ (Or.inr (Or.inr rfl)) (by decide) (by decide),
   claim_C1_amended.2.1 _ _ _ _ _⟩

theorem aset_of_none {α : Type} {m : List (String × α)} {k : String}
    (h : alookup k m = none) (v : α) : aset m k v = m ++ [(k, v)] := by
  unfold aset; rw [h]

theorem ag_cached (σ : Extractor) (raw cname display cls : String)
    (hc : clean_institution raw = some cname)
    (hlow : alookup (pyStrip (pyLower cname)) σ.group_canon = some display)
    (hcls : alookup display σ.entity_class = some cls) :
    add_group σ raw = (some display, σ) := by
  simp only [add_group, hc, setdefault_get, hlow, hcls]

theorem ag_fresh (σ : Extractor) (raw cname : String)
    (hc : clean_institution raw = some cname)
    (hlow : alookup (pyStrip (pyLower cname)) σ.group_canon = none)
    (hcls : alookup cname σ.entity_class = none) :
    (add_group σ raw).1 = some cname
    ∧ alookup cname (add_group σ raw).2.entity_class =
        some (if normalize_classification cname ∈ σ.disciplines_set then "discipline"
              else if normalize_classification cname ∈ σ.nations_set then "nation"
              else "institution") := by
  constructor
  · simp only [add_group, hc, setdefault_get, hlow, hcls]
    split
    · rfl
    · split <;> rfl
  · by_cases hd : normalize_classification cname ∈ σ.disciplines_set
    · simp [add_group, hc, setdefault_get, hlow, hcls, hd, aset_of_none hcls]
      exact alookup_append_sing_self cname _ _ hcls
    · by_cases hn : normalize_classification cname ∈ σ.nations_set
      · simp [add_group, hc, setdefault_get, hlow, hcls, hd, hn, aset_of_none hcls]
        exact alookup_append_sing_self cname _ _ hcls
      · simp [add_group, hc, setdefault_get, hlow, hcls, hd, hn, aset_of_none hcls]
        exact alookup_append_sing_self cname _ _ hcls

theorem ag_total (σ : Extractor) (raw : String) (h : (clean_institution raw).isSome) :
    (add_group σ raw).1.isSome := by
  cases hc : clean_institution raw with
  | none => rw [hc] at h; cases h
  | some cname =>
    simp only [add_group, hc, setdefault_get]
    cases hlow : alookup (pyStrip (pyLower cname)) σ.group_canon with
    | some display =>
      simp only [hlow]
      cases hcls : alookup display σ.entity_class with
      | some cls => simp
      | none =>
        simp only []
        split
        · simp
        · split <;> simp
    | none =>
      simp only [hlow]
      cases hcls : alookup cname σ.entity_class with
      | some cls => simp [hcls]
      | none =>
        simp only [hcls]
        split
        · simp
        · split <;> simp

theorem ag_idem (σ : Extractor) (raw : String) (h : (clean_institution raw).isSome) :
    add_group (add_group σ raw).2 raw = add_group σ raw := by
  obtain ⟨cname, hc⟩ := Option.isSome_iff_exists.mp h
  cases hlow : alookup (pyStrip (pyLower cname)) σ.group_canon with
  | some display =>
    cases hcls : alookup display σ.entity_class with
    | some cls =>
      have h1 := ag_cached σ raw cname display cls hc hlow hcls
      rw [h1]; exact h1
    | none =>
      by_cases hd : normalize_classification cname ∈ σ.disciplines_set
      · have h1 : add_group σ raw = (some display, { σ with
            domains := setdefault σ.domains display ⟨display, display⟩,
            entity_class := aset σ.entity_class display "discipline" }) := by
          simp [add_group, hc, setdefault_get, hlow, hcls, hd]
        have hec : alookup display (aset σ.entity_class display "discipline") =
            some "discipline" := by
          rw [aset_of_none hcls]; exact alookup_append_sing_self display _ _ hcls
        rw [h1]
        exact ag_cached _ raw cname display "discipline" hc hlow hec
      · by_cases hn : normalize_classification cname ∈ σ.nations_set
        · have h1 : add_group σ raw = (some display, { σ with
              groups := setdefault σ.groups display ⟨display, "", "nation"⟩,
              entity_class := aset σ.entity_class display "nation" }) := by
            simp [add_group, hc, setdefault_get, hlow, hcls, hd, hn]
          have hec : alookup display (aset σ.entity_class display "nation") =
              some "nation" := by
            rw [aset_of_none hcls]; exact alookup_append_sing_self display _ _ hcls
          rw [h1]
          exact ag_cached _ raw cname display "nation" hc hlow hec
        · have h1 : add_group σ raw = (some display, { σ with
              groups := setdefault σ.groups display ⟨display, "", "institution"⟩,
              entity_class := aset σ.entity_class display "institution" }) := by
            simp [add_group, hc, setdefault_get, hlow, hcls, hd, hn]
          have hec : alookup display (aset σ.entity_class display "institution") =
              some "institution" := by
            rw [aset_of_none hcls]; exact alookup_append_sing_self display _ _ hcls
          rw [h1]
          exact ag_cached _ raw cname display "institution" hc hlow hec
  | none =>
    have hlow2 : alookup (pyStrip (pyLower cname))
        (σ.group_canon ++ [(pyStrip (pyLower cname), cname)]) = some cname :=
      alookup_append_sing_self _ _ _ hlow
    cases hcls : alookup cname σ.entity_class with
    | some cls =>
      have h1 : add_group σ raw = (some cname, { σ with
          group_canon := σ.group_canon ++ [(pyStrip (pyLower cname), cname)] }) := by
        simp [add_group, hc, setdefault_get, hlow, hcls]
      rw [h1]
      exact ag_cached _ raw cname cname cls hc hlow2 hcls
    | none =>
      by_cases hd : normalize_classification cname ∈ σ.disciplines_set
      · have h1 : add_group σ raw = (some cname, { σ with
            group_canon := σ.group_canon ++ [(pyStrip (pyLower cname), cname)],
            domains := setdefault σ.domains cname ⟨cname, cname⟩,
            entity_class := aset σ.entity_class cname "discipline" }) := by
          simp [add_group, hc, setdefault_get, hlow, hcls, hd]
        have hec : alookup cname (aset σ.entity_class cname "discipline") =
            some "discipline" := by
          rw [aset_of_none hcls]; exact alookup_append_sing_self cname _ _ hcls
        rw [h1]
        exact ag_cached _ raw cname cname "discipline" hc hlow2 hec
      · by_cases hn : normalize_classification cname ∈ σ.nations_set
        · have h1 : add_group σ raw = (some cname, { σ with
              group_canon := σ.group_canon ++ [(pyStrip (pyLower cname), cname)],
              groups := setdefault σ.groups cname ⟨cname, "", "nation"⟩,
              entity_class := aset σ.entity_class cname "nation" }) := by
            simp [add_group, hc, setdefault_get, hlow, hcls, hd, hn]
          have hec : alookup cname (aset σ.entity_class cname "nation") =
              some "nation" := by
            rw [aset_of_none hcls]; exact alookup_append_sing_self cname _ _ hcls
          rw [h1]
          exact ag_cached _ raw cname cname "nation" hc hlow2 hec
        · have h1 : add_group σ raw = (some cname, { σ with
              group_canon := σ.group_canon ++ [(pyStrip (pyLower cname), cname)],
              groups := setdefault σ.groups cname ⟨cname, "", "institution"⟩,
              entity_class := aset σ.entity_class cname "institution" }) := by
            simp [add_group, hc, setdefault_get, hlow, hcls, hd, hn]
          have hec : alookup cname (aset σ.entity_class cname "institution") =
              some "institution" := by
            rw [aset_of_none hcls]; exact alookup_append_sing_self cname _ _ hcls
          rw [h1]
          exact ag_cached _ raw cname cname "institution" hc hlow2 hec

theorem ag_fresh_nodes (σ : Extractor) (raw cname : String)
    (hc : clean_institution raw = some cname)
    (hlow : alookup (pyStrip (pyLower cname)) σ.group_canon = none)
    (hcls : alookup cname σ.entity_class = none) :
    (normalize_classification cname ∈ σ.disciplines_set →
      (alookup cname (add_group σ raw).2.domains).isSome)
    ∧ (normalize_classification cname ∉ σ.disciplines_set →
      (alookup cname (add_group σ raw).2.groups).isSome) := by
  constructor
  · intro hd
    simp [add_group, hc, setdefault_get, hlow, hcls, hd, alookup_setdefault_isSome]
  · intro hd
    by_cases hn : normalize_classification cname ∈ σ.nations_set
    · simp [add_group, hc, setdefault_get, hlow, hcls, hd, hn, alookup_setdefault_isSome]
    · simp [add_group, hc, setdefault_get, hlow, hcls, hd, hn, alookup_setdefault_isSome]

/-- C2: for every raw organization name whose institution-cleaning yields a
canonical form, `_add_group` (i) never fails; (ii) returns the cached class
and canonical node unchanged when the name was already classified;
(iii) otherwise tests the accent/case-insensitive key against the discipline
set first, then the nation set, defaulting to "institution" (so a name in
both sets is a discipline), creating the corresponding Domain or GroupP
node; and (iv) classifying the same cleaned name twice yields the same
class, canonical node, and state. -/
theorem claim_C2 :
    (∀ (σ : Extractor) (raw : String),
        (clean_institution raw).isSome → (add_group σ raw).1.isSome)
  ∧ (∀ (σ : Extractor) (raw cname display cls : String),
        clean_institution raw = some cname →
        alookup (pyStrip (pyLower cname)) σ.group_canon = some display →
        alookup display σ.entity_class = some cls →
        add_group σ raw = (some display, σ))
  ∧ (∀ (σ : Extractor) (raw cname : String),
        clean_institution raw = some cname →
        alookup (pyStrip (pyLower cname)) σ.group_canon = none →
        alookup cname σ.entity_class = none →
        ((add_group σ raw).1 = some cname
         ∧ alookup cname (add_group σ raw).2.entity_class =
             some (if normalize_classification cname ∈ σ.disciplines_set then "discipline"
                   else if normalize_classification cname ∈ σ.nations_set then "nation"
                   else "institution")
         ∧ (normalize_classification cname ∈ σ.disciplines_set →
             (alookup cname (add_group σ raw).2.domains).isSome)
         ∧ (normalize_classification cname ∉ σ.disciplines_set →
             (alookup cname (add_group σ raw).2.groups).isSome)))
  ∧ (∀ (σ : Extractor) (raw : String),
        (clean_institution raw).isSome →
        add_group (add_group σ raw).2 raw = add_group σ raw) :=
  ⟨ag_total, ag_cached,
   fun σ raw cname hc hlow hcls =>
     ⟨(ag_fresh σ raw cname hc hlow hcls).1, (ag_fresh σ raw cname hc hlow hcls).2,
      (ag_fresh_nodes σ raw cname hc hlow hcls).1,
      (ag_fresh_nodes σ raw cname hc hlow hcls).2⟩,
   ag_idem⟩

/-- C2 witness: the theorem applied to the raw name "Médecine?" (which
cleans to "Médecine", normalised key "medecine") against a discipline list
containing "medecine", from the fresh initial state and from the state
already holding its classification. -/
theorem claim_C2_witness :
    (add_group (initExtractor ["france"] ["medecine"]) "Médecine?").1.isSome
  ∧ add_group ((add_group (initExtractor ["france"] ["medecine"]) "Médecine?").2) "Médecine?" =
      (some "Médecine", (add_group (initExtractor ["france"] ["medecine"]) "Médecine?").2)
  ∧ ((add_group (initExtractor ["france"] ["medecine"]) "Médecine?").1 = some "Médecine"
     ∧ alookup "Médecine"
         (add_group (initExtractor ["france"] ["medecine"]) "Médecine?").2.entity_class =
         some (if normalize_classification "Médecine" ∈ ["medecine"] then "discipline"
               else if normalize_classification "Médecine" ∈ ["france"] then "nation"
               else "institution")
     ∧ (normalize_classification "Médecine" ∈ ["medecine"] →
         (alookup "Médecine"
           (add_group (initExtractor ["france"] ["medecine"]) "Médecine?").2.domains).isSome)
     ∧ (normalize_classification "Médecine" ∉ ["medecine"] →
         (alookup "Médecine"
           (add_group (initExtractor ["france"] ["medecine"]) "Médecine?").2.groups).isSome))
  ∧ add_group (add_group (initExtractor [] []) "Universitas?").2 "Universitas?" =
      add_group (initExtractor [] []) "Universitas?" :=
  ⟨claim_C2.1 (initExtractor ["france"] ["medecine"]) "Médecine?" (by decide),
   claim_C2.2.1 ((add_group (initExtractor ["france"] ["medecine"]) "Médecine?").2)
     "Médecine?" "Médecine" "Médecine" "discipline" (by decide) (by decide) (by decide),
   claim_C2.2.2.1 (initExtractor ["france"] ["medecine"]) "Médecine?" "Médecine"
     (by decide) (by decide) (by decide),
   claim_C2.2.2.2 (initExtractor [] []) "Universitas?" (by decide)⟩

theorem alookup_map_set {α : Type} (k : String) (v : α) (m : List (String × α)) :
    alookup k (m.map (fun p => if p.1 = k then (k, v) else p)) =
      (alookup k m).map (fun _ => v) := by
  induction m with
  | nil => simp [alookup]
  | cons q rest ih =>
    simp only [List.map_cons]
    by_cases hq : q.1 = k
    · rw [if_pos hq]
      simp [alookup, hq, ih]
    · rw [if_neg hq]
      simp [alookup, hq, ih]

theorem alookup_aset_self {α : Type} (m : List (String × α)) (k : String) (v w : α)
    (h : alookup k m = some w) : alookup k (aset m k v) = some v := by
  unfold aset
  rw [h, alookup_map_set, h]
  rfl

theorem map_set_of_none {α : Type} {m : List (String × α)} {k : String}
    (h : alookup k m = none) (w : α) :
    m.map (fun p => if p.1 = k then (k, w) else p) = m := by
  induction m with
  | nil => rfl
  | cons q rest ih =>
    simp only [alookup] at h
    split at h
    · cases h
    · rename_i hq
      simp only [List.map_cons, if_neg hq, ih h]

theorem aset_append_fresh {α : Type} (m : List (String × α)) (k : String) (v w : α)
    (h : alookup k m = none) : aset (m ++ [(k, v)]) k w = m ++ [(k, w)] := by
  unfold aset
  rw [alookup_append_sing_self _ _ _ h, List.map_append, map_set_of_none h]
  simp

theorem ap_fresh (σ : Extractor) (name genre shortdesc person_type status : String)
    (h : alookup name σ.persons = none) :
    (add_person σ name genre shortdesc person_type status).2.persons =
      σ.persons ++ [(name, ⟨name, shortdesc, genre, person_type, status⟩)] := by
  have h2 := alookup_append_sing_self name σ.persons
    (⟨name, shortdesc, genre, person_type, status⟩ : PersonN) h
  simp only [add_person, setdefault, h, h2, Option.getD_some]
  rw [aset_append_fresh _ _ _ _ h]
  congr 2
  by_cases hg : genre = "" <;> by_cases hs : shortdesc = "" <;>
    by_cases ht : status = "" <;> simp [hg, hs, ht]

theorem ap_existing (σ : Extractor) (name genre shortdesc person_type status : String)
    (p : PersonN) (h : alookup name σ.persons = some p) :
    alookup name (add_person σ name genre shortdesc person_type status).2.persons =
      some ⟨p.person_id,
            (if shortdesc ≠ "" ∧ p.shortdesc = "" then shortdesc else p.shortdesc),
            (if genre ≠ "" ∧ p.genre = "" then genre else p.genre),
            p.person_type,
            (if status ≠ "" ∧ p.status = "" then status else p.status)⟩ := by
  simp only [add_person, setdefault, h, Option.getD_some]
  rw [alookup_aset_self _ _ _ p h]
  congr 1
  by_cases hg : genre ≠ "" ∧ p.genre = "" <;>
    by_cases hs : shortdesc ≠ "" ∧ p.shortdesc = "" <;>
      by_cases ht : status ≠ "" ∧ p.status = "" <;>
        simp [hg, hs, ht]
theorem ap_scenario (σ : Extractor) (name g pt1 pt2 pt3 st : String)
    (h : alookup name σ.persons = none) (_hg : g ≠ "") (hst : st ≠ "") :
    (add_person (add_person σ name g "" pt1 "").2 name "" "" pt2 st).2.persons =
      σ.persons ++ [(name, ⟨name, "", g, pt1, st⟩)]
    ∧ alookup name
        (add_person (add_person σ name g "" pt1 "").2 name "" "" pt2 st).2.persons =
        some ⟨name, "", g, pt1, st⟩
    ∧ (add_person
         (add_person (add_person σ name g "" pt1 "").2 name "" "" pt2 st).2
         name "" "" pt3 "").2.persons =
      (add_person (add_person σ name g "" pt1 "").2 name "" "" pt2 st).2.persons := by
  have h1 := ap_fresh σ name g "" pt1 "" h
  generalize hG : (add_person σ name g "" pt1 "").2 = σ1 at h1 ⊢
  have hl1 : alookup name σ1.persons = some ⟨name, "", g, pt1, ""⟩ := by
    rw [h1]; exact alookup_append_sing_self _ _ _ h
  have h2 : (add_person σ1 name "" "" pt2 st).2.persons =
      σ.persons ++ [(name, ⟨name, "", g, pt1, st⟩)] := by
    simp only [add_person, setdefault, hl1, Option.getD_some]
    simp only [ne_eq, not_true_eq_false, false_and, if_false, hst, not_false_iff, true_and]
    rw [h1, aset_append_fresh _ _ _ _ h]
    simp
  generalize hG2 : (add_person σ1 name "" "" pt2 st).2 = σ2 at h2 ⊢
  have hl2 : alookup name σ2.persons = some ⟨name, "", g, pt1, st⟩ := by
    rw [h2]; exact alookup_append_sing_self _ _ _ h
  refine ⟨h2, hl2, ?_⟩
  simp only [add_person, setdefault, hl2, Option.getD_some]
  simp only [ne_eq, not_true_eq_false, false_and, if_false]
  rw [h2, aset_append_fresh _ _ _ _ h]

/-- C3: `_add_person` creates the Person node on first mention with the
supplied fields; every later mention with the same key only fills fields
that are currently blank and never overwrites a populated one
(first-non-empty-wins); in particular a mention supplying only a gender
followed by one supplying only a status leaves a node carrying both, and a
later all-blank mention changes nothing. -/
theorem claim_C3 :
    (∀ (σ : Extractor) (name genre shortdesc person_type status : String),
        alookup name σ.persons = none →
        (add_person σ name genre shortdesc person_type status).2.persons =
          σ.persons ++ [(name, ⟨name, shortdesc, genre, person_type, status⟩)])
  ∧ (∀ (σ : Extractor) (name genre shortdesc person_type status : String) (p : PersonN),
        alookup name σ.persons = some p →
        alookup name (add_person σ name genre shortdesc person_type status).2.persons =
          some ⟨p.person_id,
                (if shortdesc ≠ "" ∧ p.shortdesc = "" then shortdesc else p.shortdesc),
                (if genre ≠ "" ∧ p.genre = "" then genre else p.genre),
                p.person_type,
                (if status ≠ "" ∧ p.status = "" then status else p.status)⟩)
  ∧ (∀ (σ : Extractor) (name g pt1 pt2 pt3 st : String),
        alookup name σ.persons = none → g ≠ "" → st ≠ "" →
        ((add_person (add_person σ name g "" pt1 "").2 name "" "" pt2 st).2.persons =
            σ.persons ++ [(name, ⟨name, "", g, pt1, st⟩)]
         ∧ alookup name
             (add_person (add_person σ name g "" pt1 "").2 name "" "" pt2 st).2.persons =
             some ⟨name, "", g, pt1, st⟩
         ∧ (add_person
              (add_person (add_person σ name g "" pt1 "").2 name "" "" pt2 st).2
              name "" "" pt3 "").2.persons =
            (add_person (add_person σ name g "" pt1 "").2 name "" "" pt2 st).2.persons)) :=
  ⟨ap_fresh, ap_existing, ap_scenario⟩

/-- C3 witness: the theorem applied to a fresh person "Guillelmus" (gender
then status, then an all-blank mention) from the empty initial state. -/
theorem claim_C3_witness :
    (add_person (initExtractor [] []) "Guillelmus" "male" "" "PhysicalPerson" "").2.persons =
      [("Guillelmus", ⟨"Guillelmus", "", "male", "PhysicalPerson", ""⟩)]
  ∧ alookup "Guillelmus"
      (add_person
        (add_person
          (add_person (initExtractor [] []) "Guillelmus" "male" "" "PhysicalPerson" "").2
          "Guillelmus" "" "" "PhysicalPerson" "magister").2
        "Guillelmus" "" "" "PhysicalPerson" "").2.persons =
      some ⟨"Guillelmus", "", "male", "PhysicalPerson", "magister"⟩
  ∧ alookup "Guillelmus"
      (add_person
        (add_person (initExtractor [] []) "Guillelmus" "male" "" "PhysicalPerson" "").2
        "Guillelmus" "" "" "PhysicalPerson" "magister").2.persons =
      some ⟨"Guillelmus", "", "male", "PhysicalPerson", "magister"⟩ := by
  have h1 := claim_C3.1 (initExtractor [] []) "Guillelmus" "male" "" "PhysicalPerson" ""
    (by decide)
  have h3 := claim_C3.2.2 (initExtractor [] []) "Guillelmus" "male" "PhysicalPerson"
    "PhysicalPerson" "PhysicalPerson" "magister" (by decide) (by decide) (by decide)
  refine ⟨?_, ?_, h3.2.1⟩
  · rw [h1]; rfl
  · rw [h3.2.2]; exact h3.2.1


/-- C4: a record whose primary identity name is absent, blank, or cleans to
a stop word is dropped entirely: `process_record` returns leaving the whole
graph store unchanged — no Person, Name, Source or other node and no edge
is created for that record. -/
theorem claim_C4 (σ : Extractor) (rec : RecordJ)
    (h : person_name_of rec = none) :
    process_record σ rec = σ := by
  simp only [process_record, process_identity, h]

/-- C4 witness: a record whose primary name is the stop word " inconnu "
(and which still carries a birth-place section) leaves the empty initial
state unchanged. -/
theorem claim_C4_witness :
    person_name_of recStopName = none ∧
    process_record (initExtractor [] []) recStopName = initExtractor [] [] :=
  ⟨by decide, claim_C4 _ _ (by decide)⟩

theorem valOfDigits_append (l : List Char) (c : Char) :
    valOfDigits (l ++ [c]) = valOfDigits l * 10 + digitVal c := by
  unfold valOfDigits
  rw [List.foldl_append]
  rfl

theorem valOfDigits_decDigitsAux (fuel : Nat) : ∀ n : Nat, n ≤ fuel →
    valOfDigits (decDigitsAux fuel n) = n := by
  induction fuel with
  | zero => intro n h; interval_cases n; rfl
  | succ fuel ih =>
    intro n h
    cases n with
    | zero => rfl
    | succ m =>
      rw [show decDigitsAux (fuel + 1) (m + 1) =
            decDigitsAux fuel ((m + 1) / 10) ++ [digitChar ((m + 1) % 10)] from rfl,
          valOfDigits_append]
      have hdiv : (m + 1) / 10 ≤ fuel := by
        have := Nat.div_lt_self (Nat.succ_pos m) (by norm_num : 1 < 10)
        omega
      rw [ih _ hdiv]
      have hall : ∀ d, d < 10 → digitVal (digitChar d) = d := by decide
      rw [hall _ (Nat.mod_lt _ (by norm_num))]
      omega

theorem valOfDigits_decDigits (n : Nat) : valOfDigits (decDigits n) = n :=
  valOfDigits_decDigitsAux n n (Nat.le_refl n)

theorem valOfDigits_replicate_zero (k : Nat) (l : List Char) :
    valOfDigits (List.replicate k '0' ++ l) = valOfDigits l := by
  induction k with
  | zero => rfl
  | succ k ih =>
    rw [List.replicate_succ, List.cons_append]
    show valOfDigits (List.replicate k '0' ++ l) = valOfDigits l
    exact ih

theorem fmtFid_injective : Function.Injective fmtFid := by
  intro a b h
  unfold fmtFid fmt06 at h
  have h2 := congrArg String.data h
  simp only [String.data_append] at h2
  have h3 := List.append_cancel_left h2
  have h4 := congrArg valOfDigits h3
  rw [valOfDigits_replicate_zero, valOfDigits_replicate_zero,
      valOfDigits_decDigits, valOfDigits_decDigits] at h4
  exact h4
theorem alookup_eq_none_of_not_mem {α : Type} {m : List (String × α)} {k : String}
    (h : k ∉ m.map Prod.fst) : alookup k m = none := by
  induction m with
  | nil => rfl
  | cons q rest ih =>
    simp only [List.map_cons, List.mem_cons] at h
    push_neg at h
    simp only [alookup]
    rw [if_neg (fun hq => h.1 hq.symm)]
    exact ih h.2

theorem fresh_fid_not_mem {σ : Extractor}
    (hA : factoidIds σ = (List.range σ.factoid_counter).map (fun k => fmtFid (k + 1))) :
    fmtFid (σ.factoid_counter + 1) ∉ factoidIds σ := by
  rw [hA]
  intro hmem
  simp only [List.mem_map, List.mem_range] at hmem
  obtain ⟨k, hk, heq⟩ := hmem
  have := fmtFid_injective heq
  omega

theorem make_factoid_spec (σ : Extractor) (fiche ftype desc orig cert : String)
    (hA : factoidIds σ = (List.range σ.factoid_counter).map (fun k => fmtFid (k + 1))) :
    (make_factoid σ fiche ftype desc orig cert).1 = fmtFid (σ.factoid_counter + 1)
    ∧ (make_factoid σ fiche ftype desc orig cert).2.factoids =
        σ.factoids ++ [(fmtFid (σ.factoid_counter + 1),
          ⟨fmtFid (σ.factoid_counter + 1), ftype, cert, "", "", desc, orig, ""⟩)]
    ∧ (make_factoid σ fiche ftype desc orig cert).2.factoid_counter = σ.factoid_counter + 1
    ∧ (make_factoid σ fiche ftype desc orig cert).2.edges = σ.edges ++
        [mkEdge "HAS_TYPE" (fmtFid (σ.factoid_counter + 1)) "Factoid" ftype "FactoidType",
         mkEdge "REFER_TO" ("SRC_" ++ fiche) "Source" (fmtFid (σ.factoid_counter + 1)) "Factoid"] := by
  have hfresh : alookup (fmtFid (σ.factoid_counter + 1)) σ.factoids = none :=
    alookup_eq_none_of_not_mem (fresh_fid_not_mem hA)
  refine ⟨rfl, ?_, rfl, ?_⟩
  · simp only [make_factoid, new_factoid_id]
    rw [aset_of_none hfresh]
  · simp only [make_factoid, new_factoid_id]
    rw [List.append_assoc]
    rfl
theorem countHT_append (fid : String) (es1 es2 : List Edge) :
    countHT fid (es1 ++ es2) = countHT fid es1 + countHT fid es2 :=
  List.countP_append _ _ _

theorem countRT_append (fid : String) (es1 es2 : List Edge) :
    countRT fid (es1 ++ es2) = countRT fid es1 + countRT fid es2 :=
  List.countP_append _ _ _

theorem StoreInv_proj {σ σ' : Extractor} (h : StoreInv σ)
    (hf : σ'.factoids = σ.factoids) (hc : σ'.factoid_counter = σ.factoid_counter)
    (he : σ'.edges = σ.edges) : StoreInv σ' := by
  unfold StoreInv factoidIds at h ⊢
  rw [hf, hc, he]
  exact h

theorem StoreInv_append_edge {σ : Extractor} (h : StoreInv σ) (e : Edge)
    (h1 : e.type ≠ "HAS_TYPE") (h2 : e.type ≠ "REFER_TO") :
    StoreInv { σ with edges := σ.edges ++ [e] } := by
  obtain ⟨hA, hB, hC⟩ := h
  refine ⟨hA, ?_, ?_⟩
  · intro fid hmem
    obtain ⟨hht, hrt⟩ := hB fid hmem
    constructor
    · rw [show ({ σ with edges := σ.edges ++ [e] } : Extractor).edges = σ.edges ++ [e] from rfl,
          countHT_append, hht]
      simp [countHT, List.countP_cons, h1]
    · rw [show ({ σ with edges := σ.edges ++ [e] } : Extractor).edges = σ.edges ++ [e] from rfl,
          countRT_append, hrt]
      simp [countRT, List.countP_cons, h2]
  · intro e' he'
    rcases List.mem_append.mp he' with hold | hnew
    · exact hC e' hold
    · have : e' = e := by simpa using hnew
      subst this
      exact ⟨fun hty => absurd hty h1, fun hty => absurd hty h2⟩
theorem StoreInv_make_factoid {σ : Extractor} (h : StoreInv σ)
    (fiche ftype desc orig cert : String) :
    StoreInv (make_factoid σ fiche ftype desc orig cert).2 := by
  obtain ⟨hA, hB, hC⟩ := h
  obtain ⟨hfid, hfac, hcnt, hedg⟩ := make_factoid_spec σ fiche ftype desc orig cert hA
  have hids : factoidIds (make_factoid σ fiche ftype desc orig cert).2 =
      factoidIds σ ++ [fmtFid (σ.factoid_counter + 1)] := by
    unfold factoidIds
    rw [hfac]
    simp
  have hfresh := fresh_fid_not_mem hA
  refine ⟨?_, ?_, ?_⟩
  · rw [hids, hcnt, List.range_succ, List.map_append, hA]
    rfl
  · intro fid' hmem
    rw [hids] at hmem
    rw [hedg]
    rcases List.mem_append.mp hmem with hold | hnew
    · have hne : fmtFid (σ.factoid_counter + 1) ≠ fid' := fun he => hfresh (he ▸ hold)
      obtain ⟨hht, hrt⟩ := hB fid' hold
      constructor
      · rw [countHT_append, hht]
        simp [countHT, List.countP_cons, mkEdge, hne]
      · rw [countRT_append, hrt]
        simp [countRT, List.countP_cons, mkEdge, hne]
    · have hfid' : fid' = fmtFid (σ.factoid_counter + 1) := by simpa using hnew
      subst hfid'
      have hzHT : countHT (fmtFid (σ.factoid_counter + 1)) σ.edges = 0 := by
        rw [countHT, List.countP_eq_zero]
        intro e he
        simp only [decide_eq_true_eq, not_and]
        intro hty hfr
        exact hfresh (hfr ▸ (hC e he).1 hty)
      have hzRT : countRT (fmtFid (σ.factoid_counter + 1)) σ.edges = 0 := by
        rw [countRT, List.countP_eq_zero]
        intro e he
        simp only [decide_eq_true_eq, not_and]
        intro hty hto
        exact hfresh (hto ▸ (hC e he).2 hty)
      constructor
      · rw [countHT_append, hzHT]
        simp [countHT, List.countP_cons, mkEdge]
      · rw [countRT_append, hzRT]
        simp [countRT, List.countP_cons, mkEdge]
  · intro e he
    rw [hedg] at he
    rw [hids]
    rcases List.mem_append.mp he with hold | hnew
    · exact ⟨fun hty => List.mem_append_left _ ((hC e hold).1 hty),
             fun hty => List.mem_append_left _ ((hC e hold).2 hty)⟩
    · rcases List.mem_cons.mp hnew with rfl | hnew2
      · exact ⟨fun _ => List.mem_append_right _ (List.mem_singleton.mpr rfl),
               fun hty => by simp [mkEdge] at hty⟩
      · have : e = mkEdge "REFER_TO" ("SRC_" ++ fiche) "Source"
            (fmtFid (σ.factoid_counter + 1)) "Factoid" := by simpa using hnew2
        subst this
        exact ⟨fun hty => by simp [mkEdge] at hty,
               fun _ => List.mem_append_right _ (List.mem_singleton.mpr rfl)⟩
theorem StoreInv_add_person {σ : Extractor} (h : StoreInv σ)
    (name genre shortdesc person_type status : String) :
    StoreInv (add_person σ name genre shortdesc person_type status).2 :=
  StoreInv_proj h rfl rfl rfl

theorem add_group_proj (σ : Extractor) (raw : String) :
    (add_group σ raw).2.factoids = σ.factoids
    ∧ (add_group σ raw).2.factoid_counter = σ.factoid_counter
    ∧ (add_group σ raw).2.edges = σ.edges := by
  unfold add_group
  cases clean_institution raw with
  | none => exact ⟨rfl, rfl, rfl⟩
  | some cname =>
    simp only []
    split
    · exact ⟨rfl, rfl, rfl⟩
    · split
      · exact ⟨rfl, rfl, rfl⟩
      · split
        · exact ⟨rfl, rfl, rfl⟩
        · exact ⟨rfl, rfl, rfl⟩

theorem StoreInv_add_group {σ : Extractor} (h : StoreInv σ) (raw : String) :
    StoreInv (add_group σ raw).2 :=
  StoreInv_proj h (add_group_proj σ raw).1 (add_group_proj σ raw).2.1 (add_group_proj σ raw).2.2

theorem get_time_id_proj (σ : Extractor) (s e : Option String) (q1 q2 : String) :
    (get_time_id σ s e q1 q2).2.factoids = σ.factoids
    ∧ (get_time_id σ s e q1 q2).2.factoid_counter = σ.factoid_counter
    ∧ (get_time_id σ s e q1 q2).2.edges = σ.edges := by
  unfold get_time_id
  split <;> exact ⟨rfl, rfl, rfl⟩

theorem StoreInv_link_participant {σ : Extractor} (h : StoreInv σ)
    (fid pn role rank : String) :
    StoreInv (link_participant σ fid pn role rank) :=
  StoreInv_append_edge h _ (by simp [mkEdge]) (by simp [mkEdge])

theorem StoreInv_link_place {σ : Extractor} (h : StoreInv σ)
    (fid pname cert : String) :
    StoreInv (link_place σ fid pname cert) :=
  StoreInv_append_edge (StoreInv_proj h rfl rfl rfl) _ (by simp [mkEdge]) (by simp [mkEdge])

theorem StoreInv_link_group {σ : Extractor} (h : StoreInv σ)
    (fid gname cert : String) :
    StoreInv (link_group σ fid gname cert) := by
  unfold link_group
  simp only []
  split
  · exact StoreInv_append_edge h _ (by simp [mkEdge]) (by simp [mkEdge])
  · exact StoreInv_append_edge h _ (by simp [mkEdge]) (by simp [mkEdge])

theorem StoreInv_link_time {σ : Extractor} (h : StoreInv σ) (fid : String)
    (s e : Option String) (q1 q2 : String) :
    StoreInv (link_time σ fid s e q1 q2) := by
  have hp := get_time_id_proj σ s e q1 q2
  have h1 : StoreInv (get_time_id σ s e q1 q2).2 := StoreInv_proj h hp.1 hp.2.1 hp.2.2
  unfold link_time
  simp only []
  split
  · exact StoreInv_append_edge h1 _ (by simp [mkEdge]) (by simp [mkEdge])
  · exact h1

theorem StoreInv_link_time_from_dates {σ : Extractor} (h : StoreInv σ)
    (fid : String) (dates : List DateEntry) :
    StoreInv (link_time_from_dates σ fid dates) := by
  unfold link_time_from_dates
  split
  · exact h
  · exact StoreInv_link_time h _ _ _ _ _

theorem StoreInv_foldl {β : Type} {f : Extractor → β → Extractor}
    (hf : ∀ σ b, StoreInv σ → StoreInv (f σ b)) :
    ∀ (l : List β) (σ : Extractor), StoreInv σ → StoreInv (List.foldl f σ l) := by
  intro l
  induction l with
  | nil => intro σ h; exact h
  | cons b rest ih => intro σ h; exact ih _ (hf σ b h)
theorem StoreInv_process_identity {σ : Extractor} (h : StoreInv σ)
    (rec : RecordJ) (sid : String) :
    StoreInv (process_identity σ rec sid).2 := by
  unfold process_identity
  cases hpn : person_name_of rec with
  | none => exact h
  | some pn =>
    refine StoreInv_foldl ?_ _ _ ?_
    · intro σ' nv h'
      cases hcv : clean (some nv.value) with
      | none => exact h'
      | some v =>
        simp only []
        split
        · exact StoreInv_append_edge (StoreInv_proj h' rfl rfl rfl) _
            (by simp [mkEdge]) (by simp [mkEdge])
        · exact h'
    · exact StoreInv_append_edge
        (StoreInv_proj
          (StoreInv_append_edge
            (StoreInv_proj (StoreInv_proj h rfl rfl rfl) rfl rfl rfl) _
            (by simp [mkEdge]) (by simp [mkEdge]))
          rfl rfl rfl) _ (by simp [mkEdge]) (by simp [mkEdge])

theorem StoreInv_process_activity_dates {σ : Extractor} (h : StoreInv σ)
    (rec : RecordJ) (fiche pn : String) :
    StoreInv (process_activity_dates σ rec fiche pn) := by
  unfold process_activity_dates
  refine StoreInv_foldl ?_ _ _ h
  intro σ1 item h1
  refine StoreInv_foldl ?_ _ _ h1
  intro σ2 dobj h2
  simp only []
  split
  · exact StoreInv_link_time
      (StoreInv_link_participant (StoreInv_make_factoid h2 _ _ _ _ _) _ _ _ _) _ _ _ _ _
  · exact h2

theorem StoreInv_process_life_dates {σ : Extractor} (h : StoreInv σ)
    (rec : RecordJ) (fiche pn : String) :
    StoreInv (process_life_dates σ rec fiche pn) := by
  unfold process_life_dates
  refine StoreInv_foldl ?_ _ _ h
  intro σ1 item h1
  refine StoreInv_foldl ?_ _ _ h1
  intro σ2 dobj h2
  simp only []
  split
  · exact StoreInv_link_time
      (StoreInv_link_participant (StoreInv_make_factoid h2 _ _ _ _ _) _ _ _ _) _ _ _ _ _
  · exact h2

theorem StoreInv_process_origin {σ : Extractor} (h : StoreInv σ)
    (rec : RecordJ) (fiche pn : String) :
    StoreInv (process_origin σ rec fiche pn) := by
  unfold process_origin
  refine StoreInv_foldl ?_ _ _ (StoreInv_foldl ?_ _ _ h)
  · intro σ1 item h1
    refine StoreInv_foldl ?_ _ _ h1
    intro σ2 inst h2
    dsimp only
    cases hg : (add_group σ2 inst).1 with
    | none => exact StoreInv_add_group h2 inst
    | some gname =>
      simp only []
      exact StoreInv_append_edge
        (StoreInv_link_participant
          (StoreInv_make_factoid
            (StoreInv_proj (StoreInv_add_group h2 inst) rfl rfl rfl) _ _ _ _ _) _ _ _ _) _
        (by simp [mkEdge]) (by simp [mkEdge])
  · intro σ1 item h1
    simp only []
    split
    · exact StoreInv_foldl (fun σ2 p h2 => StoreInv_link_place h2 _ _ _) _ _
        (StoreInv_link_participant (StoreInv_make_factoid h1 _ _ _ _ _) _ _ _ _)
    · exact h1
theorem StoreInv_grades_item {σ : Extractor} (h : StoreInv σ)
    (fiche pn : String) (item : Item) :
    StoreInv (grades_item σ fiche pn item) := by
  unfold grades_item
  dsimp only
  split
  · exact StoreInv_proj
      (StoreInv_foldl (fun σ2 p h2 => StoreInv_link_place h2 _ _ _) _ _
        (StoreInv_link_time_from_dates
          (StoreInv_link_participant (StoreInv_make_factoid h _ _ _ _ _) _ _ _ _) _ _))
      rfl rfl rfl
  · exact StoreInv_foldl (fun σ2 p h2 => StoreInv_link_place h2 _ _ _) _ _
      (StoreInv_link_time_from_dates
        (StoreInv_link_participant (StoreInv_make_factoid h _ _ _ _ _) _ _ _ _) _ _)

theorem StoreInv_process_curriculum {σ : Extractor} (h : StoreInv σ)
    (rec : RecordJ) (fiche pn : String) :
    StoreInv (process_curriculum σ rec fiche pn) := by
  unfold process_curriculum
  refine StoreInv_foldl ?_ _ _ (StoreInv_foldl ?_ _ _ (StoreInv_foldl ?_ _ _ h))
  · intro σ1 item h1
    refine StoreInv_foldl ?_ _ _ h1
    intro σ2 inst h2
    dsimp only
    cases hg : (add_group σ2 inst).1 with
    | none => exact StoreInv_add_group h2 inst
    | some gname =>
      exact StoreInv_link_group
        (StoreInv_link_participant
          (StoreInv_make_factoid (StoreInv_add_group h2 inst) _ _ _ _ _) _ _ _ _) _ _ _
  · intro σ1 item h1
    exact StoreInv_grades_item h1 _ _ _
  · intro σ1 item h1
    dsimp only
    split
    · refine StoreInv_foldl ?_ _ _
        (StoreInv_foldl (fun σ2 p h2 => StoreInv_link_place h2 _ _ _) _ _
          (StoreInv_link_time_from_dates
            (StoreInv_link_participant (StoreInv_make_factoid h1 _ _ _ _ _) _ _ _ _) _ _))
      intro σ2 inst h2
      dsimp only
      cases hg : (add_group σ2 inst).1 with
      | none => exact StoreInv_add_group h2 inst
      | some gname => exact StoreInv_link_group (StoreInv_add_group h2 inst) _ _ _
    · exact h1

theorem StoreInv_process_ecclesiastical_career {σ : Extractor} (h : StoreInv σ)
    (rec : RecordJ) (fiche pn : String) :
    StoreInv (process_ecclesiastical_career σ rec fiche pn) := by
  unfold process_ecclesiastical_career
  refine StoreInv_foldl ?_ _ _ (StoreInv_foldl ?_ _ _ h)
  · intro σ1 item h1
    refine StoreInv_foldl ?_ _ _ h1
    intro σ2 inst h2
    dsimp only
    cases hg : (add_group σ2 inst).1 with
    | none => exact StoreInv_add_group h2 inst
    | some gname =>
      exact StoreInv_link_time_from_dates
        (StoreInv_link_group
          (StoreInv_link_participant
            (StoreInv_make_factoid (StoreInv_add_group h2 inst) _ _ _ _ _) _ _ _ _) _ _ _) _ _
  · intro σ1 item h1
    refine StoreInv_foldl ?_ _ _ h1
    intro σ2 inst h2
    dsimp only
    cases hg : (add_group σ2 inst).1 with
    | none => exact StoreInv_add_group h2 inst
    | some gname =>
      exact StoreInv_link_time_from_dates
        (StoreInv_link_group
          (StoreInv_link_participant
            (StoreInv_make_factoid (StoreInv_add_group h2 inst) _ _ _ _ _) _ _ _ _) _ _ _) _ _

theorem StoreInv_process_professional_career {σ : Extractor} (h : StoreInv σ)
    (rec : RecordJ) (fiche pn : String) :
    StoreInv (process_professional_career σ rec fiche pn) := by
  unfold process_professional_career
  refine StoreInv_foldl ?_ _ _ h
  intro σ1 item h1
  dsimp only
  split
  · refine StoreInv_foldl ?_ _ _
      (StoreInv_foldl (fun σ2 p h2 => StoreInv_link_place h2 _ _ _) _ _
        (StoreInv_link_time_from_dates
          (StoreInv_link_participant (StoreInv_make_factoid h1 _ _ _ _ _) _ _ _ _) _ _))
    intro σ2 inst h2
    dsimp only
    cases hg : (add_group σ2 inst).1 with
    | none => exact StoreInv_add_group h2 inst
    | some gname => exact StoreInv_link_group (StoreInv_add_group h2 inst) _ _ _
  · exact h1

theorem StoreInv_process_relationships {σ : Extractor} (h : StoreInv σ)
    (rec : RecordJ) (fiche pn : String) :
    StoreInv (process_relationships σ rec fiche pn) := by
  unfold process_relationships
  refine StoreInv_foldl ?_ _ _ (StoreInv_foldl ?_ _ _ h)
  · intro σ1 item h1
    refine StoreInv_foldl ?_ _ _ h1
    intro σ2 raw h2
    cases hc : clean_person_name raw with
    | none => exact h2
    | some cname =>
      exact StoreInv_link_participant
        (StoreInv_link_participant
          (StoreInv_make_factoid (StoreInv_add_person h2 _ _ _ _ _) _ _ _ _ _) _ _ _ _) _ _ _ _
  · intro σ1 item h1
    refine StoreInv_foldl ?_ _ _ h1
    intro σ2 raw h2
    cases hc : clean_person_name raw with
    | none => exact h2
    | some cname =>
      exact StoreInv_link_participant
        (StoreInv_link_participant
          (StoreInv_make_factoid (StoreInv_add_person h2 _ _ _ _ _) _ _ _ _ _) _ _ _ _) _ _ _ _

set_option maxHeartbeats 1000000 in
theorem StoreInv_process_production {σ : Extractor} (h : StoreInv σ)
    (rec : RecordJ) (fiche pn : String) :
    StoreInv (process_production σ rec fiche pn) := by
  unfold process_production
  refine StoreInv_foldl ?_ _ _ h
  intro σ1 dd h1
  dsimp only
  refine StoreInv_foldl ?_ _ _ ?_
  · intro σ2 opus h2
    cases hc : clean (some opus.mainTitle) with
    | none => exact h2
    | some main_title =>
      exact StoreInv_append_edge
        (StoreInv_link_participant
          (StoreInv_make_factoid
            (StoreInv_proj (StoreInv_proj h2 rfl rfl rfl) rfl rfl rfl) _ _ _ _ _) _ _ _ _) _
        (by simp [mkEdge]) (by simp [mkEdge])
  · split
    · exact StoreInv_proj h1 rfl rfl rfl
    · exact h1

theorem StoreInv_process_bibliography {σ : Extractor} (h : StoreInv σ)
    (rec : RecordJ) (fiche : String) :
    StoreInv (process_bibliography σ rec fiche) := by
  unfold process_bibliography
  dsimp only
  refine StoreInv_foldl ?_ _ _ (StoreInv_foldl ?_ _ _ h) <;>
  · intro σ1 item h1
    cases hc : clean (some item.value) with
    | none => exact h1
    | some citation =>
      exact StoreInv_append_edge (StoreInv_proj h1 rfl rfl rfl) _
        (by simp) (by simp)

theorem StoreInv_process_record {σ : Extractor} (h : StoreInv σ) (rec : RecordJ) :
    StoreInv (process_record σ rec) := by
  unfold process_record
  dsimp only
  cases hpn : (process_identity σ rec ("SRC_" ++ rec.id_)).1 with
  | none => exact StoreInv_process_identity h rec _
  | some pn =>
    exact StoreInv_process_bibliography
      (StoreInv_process_production
        (StoreInv_process_relationships
          (StoreInv_process_professional_career
            (StoreInv_process_ecclesiastical_career
              (StoreInv_process_curriculum
                (StoreInv_process_origin
                  (StoreInv_process_life_dates
                    (StoreInv_process_activity_dates
                      (StoreInv_process_identity h rec _) rec _ _) rec _ _) rec _ _) rec _ _)
              rec _ _) rec _ _) rec _ _) rec _ _) rec _

theorem StoreInv_init (nations disciplines : List String) :
    StoreInv (initExtractor nations disciplines) := by
  refine ⟨rfl, ?_, ?_⟩
  · intro fid hmem
    cases hmem
  · intro e he
    cases he

theorem StoreInv_processRecords (nations disciplines : List String)
    (recs : List RecordJ) : StoreInv (processRecords nations disciplines recs) :=
  StoreInv_foldl (fun _ rec h => StoreInv_process_record h rec) recs _
    (StoreInv_init nations disciplines)

/-- C5: after any sequence of operations (any run of `process_record` over
any record stream from the initial state), every Factoid node in the store
has exactly one HAS_TYPE edge and exactly one REFER_TO provenance edge from
its record's Source — both emitted unconditionally at factoid creation and
never duplicated or removed later. -/
theorem claim_C5 (nations disciplines : List String) (recs : List RecordJ)
    (fid : String)
    (h : fid ∈ factoidIds (processRecords nations disciplines recs)) :
    countHT fid (processRecords nations disciplines recs).edges = 1
    ∧ countRT fid (processRecords nations disciplines recs).edges = 1 :=
  (StoreInv_processRecords nations disciplines recs).2.1 fid h

/-- C5 witness: the theorem applied to the one-record run on `rec1350`,
whose single factoid is `F_000001`. -/
theorem claim_C5_witness :
    countHT "F_000001" (processRecords [] [] [rec1350]).edges = 1
    ∧ countRT "F_000001" (processRecords [] [] [rec1350]).edges = 1 :=
  claim_C5 [] [] [rec1350] "F_000001" (by decide)

/-- C9: `_new_factoid_id` increases the counter by exactly one per creation
and returns `F_{counter:06d}`; across any run the factoid identifiers in
creation order are exactly `F_000001 .. F_{counter}` — strictly increasing
with no gaps — and pairwise distinct, so an identifier is never reused even
for semantically identical facts. -/
theorem claim_C9 :
    (∀ σ : Extractor,
        (new_factoid_id σ).2.factoid_counter = σ.factoid_counter + 1
        ∧ (new_factoid_id σ).1 = fmtFid (σ.factoid_counter + 1))
  ∧ (∀ (nations disciplines : List String) (recs : List RecordJ),
        factoidIds (processRecords nations disciplines recs) =
          (List.range (processRecords nations disciplines recs).factoid_counter).map
            (fun k => fmtFid (k + 1)))
  ∧ (∀ (nations disciplines : List String) (recs : List RecordJ),
        (factoidIds (processRecords nations disciplines recs)).Nodup) :=
  ⟨fun _ => ⟨rfl, rfl⟩,
   fun n d r => (StoreInv_processRecords n d r).1,
   fun n d r => by
     rw [(StoreInv_processRecords n d r).1]
     have hinj : Function.Injective (fun k : Nat => fmtFid (k + 1)) := by
       intro a b hab
       have := fmtFid_injective hab
       omega
     exact (List.nodup_range _).map hinj⟩

theorem lg_route (σ : Extractor) (fid gname cert : String) :
    (link_group σ fid gname cert).edges = σ.edges ++
      [if (alookup gname σ.entity_class).getD "institution" = "discipline"
       then ⟨"IN_DOMAIN", fid, "Factoid", gname, "Domain", none, none, certOpt cert, none⟩
       else ⟨"AT_GROUP", fid, "Factoid", gname, "GroupP", none, none, certOpt cert, none⟩] := by
  rfl

theorem lg_scenario (σ : Extractor) (raw cname fid cert : String)
    (hc : clean_institution raw = some cname)
    (hlow : alookup (pyStrip (pyLower cname)) σ.group_canon = none)
    (hcls : alookup cname σ.entity_class = none)
    (hd : normalize_classification cname ∈ σ.disciplines_set) :
    (add_group σ raw).1 = some cname
    ∧ (alookup cname (add_group σ raw).2.domains).isSome
    ∧ (link_group (add_group σ raw).2 fid cname cert).edges =
        (add_group σ raw).2.edges ++
        [⟨"IN_DOMAIN", fid, "Factoid", cname, "Domain", none, none, certOpt cert, none⟩] := by
  refine ⟨(ag_fresh σ raw cname hc hlow hcls).1,
          (ag_fresh_nodes σ raw cname hc hlow hcls).1 hd, ?_⟩
  have h2 := (ag_fresh σ raw cname hc hlow hcls).2
  rw [if_pos hd] at h2
  rw [lg_route, h2]
  simp
theorem c7_flat_promotion (d : RawDate) (v : String)
    (hsd : d.startDate = none) (hed : d.endDate = none) (hv : d.date = some v) :
    extract_date_entry d =
      ⟨d.type.getD "UNKNOWN", some (some v), none,
       (if qualifierPromotable (d.type.getD "SIMPLE") then d.type.getD "SIMPLE"
        else "SIMPLE"),
       "SIMPLE"⟩ := by
  unfold extract_date_entry
  rw [hsd, hed, hv]
  dsimp only
  split <;> rfl

theorem c7_scenario :
    (process_record (initExtractor [] []) rec1350).times =
      [("I_BEFORE_1350", ⟨"I_BEFORE_1350", "Instant", "1350", "", "BEFORE", "", "year"⟩)] := by
  rfl

/-- C6: `_link_group` emits exactly one edge whose type depends only on the
name's recorded classification — IN_DOMAIN to a Domain node when the
classification is "discipline", AT_GROUP to a GroupP node otherwise
(nation, institution, or unrecorded, which defaults to institution); and a
fresh name found in the discipline reference list produces a Domain node
and an IN_DOMAIN edge from the associated factoid, never an AT_GROUP edge. -/
theorem claim_C6 :
    (∀ (σ : Extractor) (fid gname cert : String),
        (link_group σ fid gname cert).edges = σ.edges ++
          [if (alookup gname σ.entity_class).getD "institution" = "discipline"
           then ⟨"IN_DOMAIN", fid, "Factoid", gname, "Domain", none, none, certOpt cert, none⟩
           else ⟨"AT_GROUP", fid, "Factoid", gname, "GroupP", none, none, certOpt cert, none⟩])
  ∧ (∀ (σ : Extractor) (raw cname fid cert : String),
        clean_institution raw = some cname →
        alookup (pyStrip (pyLower cname)) σ.group_canon = none →
        alookup cname σ.entity_class = none →
        normalize_classification cname ∈ σ.disciplines_set →
        ((add_group σ raw).1 = some cname
         ∧ (alookup cname (add_group σ raw).2.domains).isSome
         ∧ (link_group (add_group σ raw).2 fid cname cert).edges =
             (add_group σ raw).2.edges ++
             [⟨"IN_DOMAIN", fid, "Factoid", cname, "Domain", none, none,
               certOpt cert, none⟩])) :=
  ⟨lg_route, lg_scenario⟩

/-- C6 witness: the theorem applied to the raw name "Ars$" (cleaning to
"Ars", key "ars") against a discipline list containing "ars", and the
routing equation at a concrete unclassified name. -/
theorem claim_C6_witness :
    (link_group (initExtractor [] []) "F_000001" "Oxford" "").edges =
      (initExtractor [] []).edges ++
      [if (alookup "Oxford" (initExtractor [] []).entity_class).getD "institution" =
          "discipline"
       then ⟨"IN_DOMAIN", "F_000001", "Factoid", "Oxford", "Domain", none, none,
             certOpt "", none⟩
       else ⟨"AT_GROUP", "F_000001", "Factoid", "Oxford", "GroupP", none, none,
             certOpt "", none⟩]
  ∧ ((add_group (initExtractor [] ["ars"]) "Ars$").1 = some "Ars"
     ∧ (alookup "Ars" (add_group (initExtractor [] ["ars"]) "Ars$").2.domains).isSome
     ∧ (link_group (add_group (initExtractor [] ["ars"]) "Ars$").2 "F_000001" "Ars" "").edges =
         (add_group (initExtractor [] ["ars"]) "Ars$").2.edges ++
         [⟨"IN_DOMAIN", "F_000001", "Factoid", "Ars", "Domain", none, none,
           certOpt "", none⟩]) :=
  ⟨claim_C6.1 (initExtractor [] []) "F_000001" "Oxford" "",
   claim_C6.2 (initExtractor [] ["ars"]) "Ars$" "Ars" "F_000001" ""
     (by decide) (by decide) (by decide) (by decide)⟩

/-- C7: for a date sub-object with a single flat date and no explicit
startDate/endDate pair, `extract_dates` takes the flat value as the start
and promotes the top-level qualifier onto the start exactly when it is
BEFORE, AFTER or NEAR (otherwise the start qualifier stays SIMPLE); and the
record whose only date entry is `date="1350"` with top-level qualifier
BEFORE yields exactly one Instant Time node keyed "I_BEFORE_1350" with
begin "1350" and begin qualifier BEFORE. -/
theorem claim_C7 :
    (∀ (d : RawDate) (v : String),
        d.startDate = none → d.endDate = none → d.date = some v →
        extract_date_entry d =
          ⟨d.type.getD "UNKNOWN", some (some v), none,
           (if qualifierPromotable (d.type.getD "SIMPLE") then d.type.getD "SIMPLE"
            else "SIMPLE"),
           "SIMPLE"⟩)
  ∧ (∀ meta : MetaObj, extract_dates meta = meta.dates.map extract_date_entry)
  ∧ (process_record (initExtractor [] []) rec1350).times =
      [("I_BEFORE_1350", ⟨"I_BEFORE_1350", "Instant", "1350", "", "BEFORE", "", "year"⟩)] :=
  ⟨c7_flat_promotion, fun _ => rfl, c7_scenario⟩

/-- C7 witness: the promotion equation applied to the concrete flat date
sub-object `{type: BEFORE, date: "1350"}`, together with the end-to-end
scenario conjunct. -/
theorem claim_C7_witness :
    extract_date_entry ⟨some "BEFORE", some "1350", none, none⟩ =
      ⟨(some "BEFORE").getD "UNKNOWN", some (some "1350"), none,
       (if qualifierPromotable ((some "BEFORE").getD "SIMPLE")
        then (some "BEFORE").getD "SIMPLE" else "SIMPLE"),
       "SIMPLE"⟩
  ∧ (process_record (initExtractor [] []) rec1350).times =
      [("I_BEFORE_1350", ⟨"I_BEFORE_1350", "Instant", "1350", "", "BEFORE", "", "year"⟩)] :=
  ⟨claim_C7.1 ⟨some "BEFORE", some "1350", none, none⟩ "1350" rfl rfl rfl,
   claim_C7.2.2⟩

theorem foldl_pres {β : Type} (P : Extractor → Prop) {f : Extractor → β → Extractor}
    (hf : ∀ σ b, P σ → P (f σ b)) :
    ∀ (l : List β) (σ : Extractor), P σ → P (List.foldl f σ l) := by
  intro l
  induction l with
  | nil => intro σ h; exact h
  | cons b rest ih => intro σ h; exact ih _ (hf σ b h)

theorem pad_empty (σ : Extractor) (rec : RecordJ) (fiche pn : String)
    (h : rec.identity.datesOfActivity = []) :
    process_activity_dates σ rec fiche pn = σ := by
  unfold process_activity_dates
  rw [h]
  rfl

theorem pld_empty (σ : Extractor) (rec : RecordJ) (fiche pn : String)
    (h : rec.identity.datesOfLife = []) :
    process_life_dates σ rec fiche pn = σ := by
  unfold process_life_dates
  rw [h]
  rfl

theorem porig_empty (σ : Extractor) (rec : RecordJ) (fiche pn : String)
    (h1 : rec.origin.birthPlace = []) (h2 : rec.origin.diocese = []) :
    process_origin σ rec fiche pn = σ := by
  unfold process_origin
  rw [h1, h2]
  rfl

theorem pcur_empty (σ : Extractor) (rec : RecordJ) (fiche pn : String)
    (h1 : rec.curriculum.university = []) (h2 : rec.curriculum.grades = [])
    (h3 : rec.curriculum.universityCollege = []) :
    process_curriculum σ rec fiche pn = σ := by
  unfold process_curriculum
  rw [h1, h2, h3]
  rfl

theorem pecc_empty (σ : Extractor) (rec : RecordJ) (fiche pn : String)
    (h1 : rec.ecclesiasticalCareer.secularPosition = [])
    (h2 : rec.ecclesiasticalCareer.regularOrder = []) :
    process_ecclesiastical_career σ rec fiche pn = σ := by
  unfold process_ecclesiastical_career
  rw [h1, h2]
  rfl

theorem pprof_empty (σ : Extractor) (rec : RecordJ) (fiche pn : String)
    (h : rec.professionalCareer.universityFunction = []) :
    process_professional_career σ rec fiche pn = σ := by
  unfold process_professional_career
  rw [h]
  rfl

theorem prel_empty (σ : Extractor) (rec : RecordJ) (fiche pn : String)
    (h1 : rec.relationalInsertion.familyNetwork = [])
    (h2 : rec.relationalInsertion.studentProfessorRelationships = []) :
    process_relationships σ rec fiche pn = σ := by
  unfold process_relationships
  rw [h1, h2]
  rfl

theorem pprod_empty (σ : Extractor) (rec : RecordJ) (fiche pn : String)
    (h : rec.textualProduction = []) :
    process_production σ rec fiche pn = σ := by
  unfold process_production
  rw [h]
  rfl

theorem pbib_empty (σ : Extractor) (rec : RecordJ) (fiche : String)
    (h1 : rec.bibliography.workReferences = [])
    (h2 : rec.bibliography.bookReferences = []) :
    process_bibliography σ rec fiche = σ := by
  unfold process_bibliography
  rw [h1, h2]
  rfl

theorem process_identity_factoids (σ : Extractor) (rec : RecordJ) (sid : String) :
    (process_identity σ rec sid).2.factoids = σ.factoids := by
  unfold process_identity
  cases hpn : person_name_of rec with
  | none => rfl
  | some pn =>
    refine foldl_pres (fun σ' => σ'.factoids = σ.factoids) ?_ _ _ rfl
    intro σ' nv h'
    cases hcv : clean (some nv.value) with
    | none => exact h'
    | some v =>
      dsimp only
      split
      · exact h'
      · exact h'
theorem c8_record (σ : Extractor) (rec : RecordJ) (hes : emptySections rec) :
    process_record σ rec = (process_identity σ rec ("SRC_" ++ rec.id_)).2
    ∧ (process_record σ rec).factoids = σ.factoids := by
  obtain ⟨h1, h2, h3, h4, h5, h6, h7, h8, h9, h10, h11, h12, h13, h14, h15⟩ := hes
  have hmain : process_record σ rec = (process_identity σ rec ("SRC_" ++ rec.id_)).2 := by
    unfold process_record
    dsimp only
    cases hpn : (process_identity σ rec ("SRC_" ++ rec.id_)).1 with
    | none => rfl
    | some pn =>
      dsimp only
      rw [pad_empty _ _ _ _ h1, pld_empty _ _ _ _ h2, porig_empty _ _ _ _ h3 h4,
          pcur_empty _ _ _ _ h5 h6 h7, pecc_empty _ _ _ _ h8 h9,
          pprof_empty _ _ _ _ h10, prel_empty _ _ _ _ h11 h12,
          pprod_empty _ _ _ _ h13, pbib_empty _ _ _ h14 h15]
  exact ⟨hmain, by rw [hmain, process_identity_factoids]⟩

/-- C8: `process_record` is total over absence — each optional section
processor is the identity when its section is missing/empty, so absent
sub-fields emit nothing and never fail while sibling sections are
unaffected; on a record whose optional sections are all empty the pipeline
reduces to exactly the identity processing and emits zero factoids. -/
theorem claim_C8 :
    (∀ (σ : Extractor) (rec : RecordJ) (fiche pn : String),
        rec.identity.datesOfActivity = [] → process_activity_dates σ rec fiche pn = σ)
  ∧ (∀ (σ : Extractor) (rec : RecordJ) (fiche pn : String),
        rec.identity.datesOfLife = [] → process_life_dates σ rec fiche pn = σ)
  ∧ (∀ (σ : Extractor) (rec : RecordJ) (fiche pn : String),
        rec.origin.birthPlace = [] → rec.origin.diocese = [] →
        process_origin σ rec fiche pn = σ)
  ∧ (∀ (σ : Extractor) (rec : RecordJ) (fiche pn : String),
        rec.curriculum.university = [] → rec.curriculum.grades = [] →
        rec.curriculum.universityCollege = [] →
        process_curriculum σ rec fiche pn = σ)
  ∧ (∀ (σ : Extractor) (rec : RecordJ) (fiche pn : String),
        rec.ecclesiasticalCareer.secularPosition = [] →
        rec.ecclesiasticalCareer.regularOrder = [] →
        process_ecclesiastical_career σ rec fiche pn = σ)
  ∧ (∀ (σ : Extractor) (rec : RecordJ) (fiche pn : String),
        rec.professionalCareer.universityFunction = [] →
        process_professional_career σ rec fiche pn = σ)
  ∧ (∀ (σ : Extractor) (rec : RecordJ) (fiche pn : String),
        rec.relationalInsertion.familyNetwork = [] →
        rec.relationalInsertion.studentProfessorRelationships = [] →
        process_relationships σ rec fiche pn = σ)
  ∧ (∀ (σ : Extractor) (rec : RecordJ) (fiche pn : String),
        rec.textualProduction = [] → process_production σ rec fiche pn = σ)
  ∧ (∀ (σ : Extractor) (rec : RecordJ) (fiche : String),
        rec.bibliography.workReferences = [] → rec.bibliography.bookReferences = [] →
        process_bibliography σ rec fiche = σ)
  ∧ (∀ (σ : Extractor) (rec : RecordJ), emptySections rec →
        process_record σ rec = (process_identity σ rec ("SRC_" ++ rec.id_)).2
        ∧ (process_record σ rec).factoids = σ.factoids) :=
  ⟨pad_empty, pld_empty, porig_empty, pcur_empty, pecc_empty, pprof_empty,
   prel_empty, pprod_empty, pbib_empty, c8_record⟩

/-- C8 witness: the theorem applied to the all-sections-empty record
`recJohannes` from the empty initial state. -/
theorem claim_C8_witness :
    process_activity_dates (initExtractor [] []) recJohannes "R1" "Johannes" =
      initExtractor [] []
  ∧ (process_record (initExtractor [] []) recJohannes =
       (process_identity (initExtractor [] []) recJohannes
         ("SRC_" ++ recJohannes.id_)).2
     ∧ (process_record (initExtractor [] []) recJohannes).factoids =
         (initExtractor [] []).factoids) :=
  ⟨claim_C8.1 (initExtractor [] []) recJohannes "R1" "Johannes" rfl,
   claim_C8.2.2.2.2.2.2.2.2.2 (initExtractor [] []) recJohannes
     (by exact ⟨rfl, rfl, rfl, rfl, rfl, rfl, rfl, rfl, rfl, rfl, rfl, rfl, rfl, rfl, rfl⟩)⟩

theorem clean_ne_empty {x : Option String} {s : String} (h : clean x = some s) :
    s ≠ "" := by
  cases x with
  | none => cases h
  | some t =>
    unfold clean at h
    dsimp only at h
    split at h
    · cases h
    · rename_i hcond
      injection h with h
      subst h
      intro he
      exact hcond (Or.inr he)
theorem get_time_id_frame (σ : Extractor) (s e : Option String) (q1 q2 : String) :
    (get_time_id σ s e q1 q2).2.factoids = σ.factoids
    ∧ (get_time_id σ s e q1 q2).2.ranks = σ.ranks
    ∧ (get_time_id σ s e q1 q2).2.edges = σ.edges := by
  unfold get_time_id
  split <;> exact ⟨rfl, rfl, rfl⟩

theorem link_time_frame (σ : Extractor) (fid : String) (s e : Option String)
    (q1 q2 : String) :
    (link_time σ fid s e q1 q2).factoids = σ.factoids
    ∧ (link_time σ fid s e q1 q2).ranks = σ.ranks
    ∧ ∃ t, (link_time σ fid s e q1 q2).edges = σ.edges ++ t := by
  obtain ⟨hf, hr, he⟩ := get_time_id_frame σ s e q1 q2
  unfold link_time
  dsimp only
  split
  · exact ⟨hf, hr, ⟨_, by rw [show ∀ E : Extractor, ∀ es, ({ E with edges := es } : Extractor).edges = es from fun _ _ => rfl, he]⟩⟩
  · exact ⟨hf, hr, ⟨[], by rw [he, List.append_nil]⟩⟩

theorem link_time_from_dates_frame (σ : Extractor) (fid : String)
    (dates : List DateEntry) :
    (link_time_from_dates σ fid dates).factoids = σ.factoids
    ∧ (link_time_from_dates σ fid dates).ranks = σ.ranks
    ∧ ∃ t, (link_time_from_dates σ fid dates).edges = σ.edges ++ t := by
  unfold link_time_from_dates
  split
  · exact ⟨rfl, rfl, ⟨[], by rw [List.append_nil]⟩⟩
  · exact link_time_frame σ fid _ _ _ _
theorem link_place_foldl_frame (places : List String) (fid cert : String) :
    ∀ σ : Extractor,
    ((places.foldl (fun σ2 p => link_place σ2 fid p cert) σ).factoids = σ.factoids
     ∧ (places.foldl (fun σ2 p => link_place σ2 fid p cert) σ).ranks = σ.ranks
     ∧ ∃ t, (places.foldl (fun σ2 p => link_place σ2 fid p cert) σ).edges = σ.edges ++ t) := by
  induction places with
  | nil => intro σ; exact ⟨rfl, rfl, ⟨[], (List.append_nil _).symm⟩⟩
  | cons p rest ih =>
    intro σ
    obtain ⟨hf, hr, ⟨t, ht⟩⟩ := ih (link_place σ fid p cert)
    rw [List.foldl_cons]
    refine ⟨hf, hr, ?_⟩
    refine ⟨[(⟨"TOOK_PLACE_AT", fid, "Factoid", p, "Place", none, none,
             certOpt cert, none⟩ : Edge)] ++ t, ?_⟩
    rw [ht, show (link_place σ fid p cert).edges = σ.edges ++
      [(⟨"TOOK_PLACE_AT", fid, "Factoid", p, "Place", none, none,
         certOpt cert, none⟩ : Edge)] from rfl, List.append_assoc]
theorem grades_item_spec (σ : Extractor) (fiche pn : String) (item : Item)
    (hA : factoidIds σ = (List.range σ.factoid_counter).map (fun k => fmtFid (k + 1))) :
    (grades_item σ fiche pn item).factoids =
      σ.factoids ++ [(fmtFid (σ.factoid_counter + 1),
        ⟨fmtFid (σ.factoid_counter + 1), "ACADEMIC_GRADE", "", "", "",
         "Grade de " ++ pn ++ ": " ++ (clean (some item.value)).getD "", "", ""⟩)]
    ∧ (⟨"PARTICIPATE", fmtFid (σ.factoid_counter + 1), "Factoid", pn, "Person",
        some "STUDENT", some ((clean (some item.value)).getD ""), none, none⟩ : Edge) ∈
        (grades_item σ fiche pn item).edges
    ∧ (grades_item σ fiche pn item).ranks =
        (if (clean (some item.value)).getD "" ≠ "" then
           setdefault σ.ranks ((clean (some item.value)).getD "")
             ⟨(clean (some item.value)).getD "", (clean (some item.value)).getD ""⟩
         else σ.ranks) := by
  obtain ⟨hfid, hfac, hcnt, hedg⟩ := make_factoid_spec σ fiche "ACADEMIC_GRADE"
    ("Grade de " ++ pn ++ ": " ++ (clean (some item.value)).getD "") "" "" hA
  have hrk : (make_factoid σ fiche "ACADEMIC_GRADE"
      ("Grade de " ++ pn ++ ": " ++ (clean (some item.value)).getD "") "" "").2.ranks =
      σ.ranks := rfl
  unfold grades_item
  dsimp only
  generalize hM : make_factoid σ fiche "ACADEMIC_GRADE"
    ("Grade de " ++ pn ++ ": " ++ (clean (some item.value)).getD "") "" "" = M
    at hfid hfac hcnt hedg hrk ⊢
  rw [hfid]
  obtain ⟨h2f, h2r, t2, h2e⟩ := link_time_from_dates_frame
    (link_participant M.2 (fmtFid (σ.factoid_counter + 1)) pn "STUDENT"
      ((clean (some item.value)).getD ""))
    (fmtFid (σ.factoid_counter + 1)) (extract_dates item.meta)
  obtain ⟨h3f, h3r, t3, h3e⟩ := link_place_foldl_frame (safe_list item.meta.places)
    (fmtFid (σ.factoid_counter + 1))
    (if (detect_uncertainty item.meta).places then "uncertain" else "")
    (link_time_from_dates
      (link_participant M.2 (fmtFid (σ.factoid_counter + 1)) pn "STUDENT"
        ((clean (some item.value)).getD ""))
      (fmtFid (σ.factoid_counter + 1)) (extract_dates item.meta))
  have hedges : (List.foldl
      (fun σ2 p => link_place σ2 (fmtFid (σ.factoid_counter + 1)) p
        (if (detect_uncertainty item.meta).places then "uncertain" else ""))
      (link_time_from_dates
        (link_participant M.2 (fmtFid (σ.factoid_counter + 1)) pn "STUDENT"
          ((clean (some item.value)).getD ""))
        (fmtFid (σ.factoid_counter + 1)) (extract_dates item.meta))
      (safe_list item.meta.places)).edges =
      ((M.2.edges ++ [(⟨"PARTICIPATE", fmtFid (σ.factoid_counter + 1), "Factoid", pn,
          "Person", some "STUDENT", some ((clean (some item.value)).getD ""),
          none, none⟩ : Edge)]) ++ t2) ++ t3 := by
    rw [h3e, h2e]
    rfl
  have hfacts : (List.foldl
      (fun σ2 p => link_place σ2 (fmtFid (σ.factoid_counter + 1)) p
        (if (detect_uncertainty item.meta).places then "uncertain" else ""))
      (link_time_from_dates
        (link_participant M.2 (fmtFid (σ.factoid_counter + 1)) pn "STUDENT"
          ((clean (some item.value)).getD ""))
        (fmtFid (σ.factoid_counter + 1)) (extract_dates item.meta))
      (safe_list item.meta.places)).factoids =
      σ.factoids ++ [(fmtFid (σ.factoid_counter + 1),
        ⟨fmtFid (σ.factoid_counter + 1), "ACADEMIC_GRADE", "", "", "",
         "Grade de " ++ pn ++ ": " ++ (clean (some item.value)).getD "", "", ""⟩)] := by
    rw [h3f, h2f]
    exact hfac
  have hranks : (List.foldl
      (fun σ2 p => link_place σ2 (fmtFid (σ.factoid_counter + 1)) p
        (if (detect_uncertainty item.meta).places then "uncertain" else ""))
      (link_time_from_dates
        (link_participant M.2 (fmtFid (σ.factoid_counter + 1)) pn "STUDENT"
          ((clean (some item.value)).getD ""))
        (fmtFid (σ.factoid_counter + 1)) (extract_dates item.meta))
      (safe_list item.meta.places)).ranks = σ.ranks := by
    rw [h3r, h2r]
    exact hrk
  split
  · refine ⟨hfacts, ?_, ?_⟩
    · rw [hedges]
      simp
    · rw [show ∀ E : Extractor, ∀ rk, ({ E with ranks := rk } : Extractor).ranks = rk
          from fun _ _ => rfl, hranks]
  · exact ⟨hfacts, by rw [hedges]; simp, hranks⟩
theorem grades_item_empty (σ : Extractor) (fiche pn : String) (item : Item)
    (hA : factoidIds σ = (List.range σ.factoid_counter).map (fun k => fmtFid (k + 1)))
    (hclean : clean (some item.value) = none)
    (hdates : item.meta.dates = []) (hplaces : item.meta.places = []) :
    (grades_item σ fiche pn item).factoids =
      σ.factoids ++ [(fmtFid (σ.factoid_counter + 1),
        ⟨fmtFid (σ.factoid_counter + 1), "ACADEMIC_GRADE", "", "", "",
         "Grade de " ++ pn ++ ": " ++ "", "", ""⟩)]
    ∧ (grades_item σ fiche pn item).edges = σ.edges ++
        [mkEdge "HAS_TYPE" (fmtFid (σ.factoid_counter + 1)) "Factoid"
           "ACADEMIC_GRADE" "FactoidType",
         mkEdge "REFER_TO" ("SRC_" ++ fiche) "Source"
           (fmtFid (σ.factoid_counter + 1)) "Factoid",
         ⟨"PARTICIPATE", fmtFid (σ.factoid_counter + 1), "Factoid", pn, "Person",
          some "STUDENT", some "", none, none⟩]
    ∧ (grades_item σ fiche pn item).ranks = σ.ranks := by
  obtain ⟨hfid, hfac, hcnt, hedg⟩ := make_factoid_spec σ fiche "ACADEMIC_GRADE"
    ("Grade de " ++ pn ++ ": " ++ (clean (some item.value)).getD "") "" "" hA
  rw [hclean] at hfid hfac hedg
  simp only [Option.getD_none] at hfid hfac hedg
  have hde : extract_dates item.meta = [] := by
    unfold extract_dates
    rw [hdates]
    rfl
  have hsl : safe_list item.meta.places = [] := by
    unfold safe_list
    rw [hplaces]
    rfl
  unfold grades_item
  dsimp only
  rw [hclean, hde, hsl]
  dsimp only [link_time_from_dates, List.foldl, Option.getD]
  rw [if_neg (by decide : ¬("" : String) ≠ "")]
  refine ⟨hfac, ?_, rfl⟩
  rw [show (link_participant
      (make_factoid σ fiche "ACADEMIC_GRADE" ("Grade de " ++ pn ++ ": " ++ "") "" "").2
      (make_factoid σ fiche "ACADEMIC_GRADE" ("Grade de " ++ pn ++ ": " ++ "") "" "").1
      pn "STUDENT" "").edges =
    (make_factoid σ fiche "ACADEMIC_GRADE" ("Grade de " ++ pn ++ ": " ++ "") "" "").2.edges ++
      [(⟨"PARTICIPATE",
         (make_factoid σ fiche "ACADEMIC_GRADE" ("Grade de " ++ pn ++ ": " ++ "") "" "").1,
         "Factoid", pn, "Person", some "STUDENT", some "", none, none⟩ : Edge)] from rfl]
  rw [hedg, hfid, List.append_assoc]
  rfl

/-- C10: for every entry of the curriculum `grades` section, an
ACADEMIC_GRADE factoid and its PARTICIPATE(role=STUDENT, rank=grade) edge
are emitted unconditionally — in particular even when the grade value
cleans to absent and no place or date is present — while the Rank node is
created only when the cleaned grade value is non-absent. -/
theorem claim_C10 :
    (∀ (σ : Extractor) (fiche pn : String) (item : Item),
        factoidIds σ = (List.range σ.factoid_counter).map (fun k => fmtFid (k + 1)) →
        ((grades_item σ fiche pn item).factoids =
            σ.factoids ++ [(fmtFid (σ.factoid_counter + 1),
              ⟨fmtFid (σ.factoid_counter + 1), "ACADEMIC_GRADE", "", "", "",
               "Grade de " ++ pn ++ ": " ++ (clean (some item.value)).getD "", "", ""⟩)]
         ∧ (⟨"PARTICIPATE", fmtFid (σ.factoid_counter + 1), "Factoid", pn, "Person",
             some "STUDENT", some ((clean (some item.value)).getD ""), none, none⟩ : Edge) ∈
             (grades_item σ fiche pn item).edges
         ∧ (grades_item σ fiche pn item).ranks =
             (if (clean (some item.value)).getD "" ≠ "" then
                setdefault σ.ranks ((clean (some item.value)).getD "")
                  ⟨(clean (some item.value)).getD "", (clean (some item.value)).getD ""⟩
              else σ.ranks)))
  ∧ (∀ (σ : Extractor) (fiche pn : String) (item : Item),
        factoidIds σ = (List.range σ.factoid_counter).map (fun k => fmtFid (k + 1)) →
        clean (some item.value) = none →
        item.meta.dates = [] → item.meta.places = [] →
        ((grades_item σ fiche pn item).factoids =
            σ.factoids ++ [(fmtFid (σ.factoid_counter + 1),
              ⟨fmtFid (σ.factoid_counter + 1), "ACADEMIC_GRADE", "", "", "",
               "Grade de " ++ pn ++ ": " ++ "", "", ""⟩)]
         ∧ (grades_item σ fiche pn item).edges = σ.edges ++
             [mkEdge "HAS_TYPE" (fmtFid (σ.factoid_counter + 1)) "Factoid"
                "ACADEMIC_GRADE" "FactoidType",
              mkEdge "REFER_TO" ("SRC_" ++ fiche) "Source"
                (fmtFid (σ.factoid_counter + 1)) "Factoid",
              ⟨"PARTICIPATE", fmtFid (σ.factoid_counter + 1), "Factoid", pn, "Person",
               some "STUDENT", some "", none, none⟩]
         ∧ (grades_item σ fiche pn item).ranks = σ.ranks)) :=
  ⟨grades_item_spec, grades_item_empty⟩

/-- C10 witness: the theorem applied to the empty initial state, once with
the gradeless item `{value: "?"}` (cleans to absent: factoid and
PARTICIPATE edge still emitted, no Rank node) and once with
`{value: "magister$"}` (cleans to "magister": Rank node created). -/
theorem claim_C10_witness :
    ((grades_item (initExtractor [] []) "R1" "Johannes" ⟨"?", emptyMeta⟩).factoids =
        (initExtractor [] []).factoids ++ [(fmtFid 1,
          ⟨fmtFid 1, "ACADEMIC_GRADE", "", "", "",
           "Grade de " ++ "Johannes" ++ ": " ++ "", "", ""⟩)]
     ∧ (grades_item (initExtractor [] []) "R1" "Johannes" ⟨"?", emptyMeta⟩).edges =
        (initExtractor [] []).edges ++
          [mkEdge "HAS_TYPE" (fmtFid 1) "Factoid" "ACADEMIC_GRADE" "FactoidType",
           mkEdge "REFER_TO" ("SRC_" ++ "R1") "Source" (fmtFid 1) "Factoid",
           ⟨"PARTICIPATE", fmtFid 1, "Factoid", "Johannes", "Person",
            some "STUDENT", some "", none, none⟩]
     ∧ (grades_item (initExtractor [] []) "R1" "Johannes" ⟨"?", emptyMeta⟩).ranks =
        (initExtractor [] []).ranks)
  ∧ (grades_item (initExtractor [] []) "R1" "Johannes" ⟨"magister$", emptyMeta⟩).ranks =
      (if (clean (some "magister$")).getD "" ≠ "" then
         setdefault (initExtractor [] []).ranks ((clean (some "magister$")).getD "")
           ⟨(clean (some "magister$")).getD "", (clean (some "magister$")).getD ""⟩
       else (initExtractor [] []).ranks) :=
  ⟨claim_C10.2 (initExtractor [] []) "R1" "Johannes" ⟨"?", emptyMeta⟩
     rfl (by decide) rfl rfl,
   (claim_C10.1 (initExtractor [] []) "R1" "Johannes" ⟨"magister$", emptyMeta⟩ rfl).2.2⟩

end Daphne
